import Mathlib

/-!
Verification development for the Forum AI-brainstorming server.

This file shallowly embeds the server-side core of the repository —
`src/server/services/personalityService.ts`,
`src/server/services/graphService.ts`, and the response-size middleware of
`src/server/middleware/security.ts` — and proves the behavioural properties
stated in the specification against that embedding.

Modelling conventions:
* UUIDs are modelled by a monotone `Nat` counter threaded through the state
  (`uuidv4` returns a globally fresh identifier; freshness is the only
  property the code relies on).
* The upstream Gemini client is modelled by an environment value
  (`GenEnv`): the API key may be absent, the whole call may throw, or each
  of the three per-persona calls independently errors or returns
  (possibly missing / degenerate) text.
* JavaScript string operations (`trim`, truthiness of strings, `.length`,
  `JSON.stringify`, `Buffer.byteLength`) are modelled by explicit
  executable Lean functions defined below.
* `Math.round(a / b)` on non-negative numbers is modelled exactly as
  round-half-up, i.e. `(2*a + b) / (2*b)` in natural division.
-/

/-- Model of JavaScript `String.prototype.trim`: strips leading and trailing
whitespace characters. -/
def jsTrim (s : String) : String :=
  ⟨((s.data.dropWhile Char.isWhitespace).reverse.dropWhile Char.isWhitespace).reverse⟩

/-- The three fixed personality names (`PersonalityName` in
`personalityService.ts`). -/
inductive Persona
  | optimist
  | pessimist
  | realist
deriving DecidableEq

/-- One entry of the `PERSONAS` configuration array. -/
structure PersonaCfg where
  name : Persona
  systemPrompt : String
  color : String
deriving DecidableEq

/-- First entry of the `PERSONAS` array of `personalityService.ts`. -/
def optimistCfg : PersonaCfg :=
  { name := Persona.optimist,
    systemPrompt := "You are an Optimist AI personality. Assume the best-case scenario and highlight bold opportunities. Focus on potential, possibilities, and positive outcomes. Be encouraging and forward-thinking, but stay grounded in reality. Respond with enthusiasm while maintaining credibility.",
    color := "green" }

/-- Second entry of the `PERSONAS` array of `personalityService.ts`. -/
def pessimistCfg : PersonaCfg :=
  { name := Persona.pessimist,
    systemPrompt := "You are a Pessimist AI personality. Surface risks, pitfalls, and worst-case outcomes first. Focus on challenges, obstacles, and potential failures. Be cautious and analytical, identifying what could go wrong. Provide critical perspective while being constructive.",
    color := "red" }

/-- Third entry of the `PERSONAS` array of `personalityService.ts`. -/
def realistCfg : PersonaCfg :=
  { name := Persona.realist,
    systemPrompt := "You are a Realist AI personality. Project the most likely scenario, balancing pros and cons. Focus on practical considerations and realistic expectations. Provide balanced assessment considering both opportunities and constraints. Be pragmatic and evidence-based.",
    color := "grey" }

/-- The `PERSONAS` array of `personalityService.ts`. -/
def PERSONAS : List PersonaCfg := [optimistCfg, pessimistCfg, realistCfg]

/-- `PersonalityResponse` of `personalityService.ts`. -/
structure PersonalityResponse where
  persona : Persona
  text : String
  color : String
deriving DecidableEq

/-- `getPersonalityFallback` of `personalityService.ts`: the static
persona-flavoured fallback response, with the original prompt interpolated
verbatim into a fixed template. -/
def getPersonalityFallback (personality : Persona) (prompt : String) : PersonalityResponse :=
  let personaColor := (((PERSONAS.find? (fun p => decide (p.name = personality))).map
    (fun p => p.color)).getD "")
  let fallbackText : String :=
    match personality with
    | Persona.optimist =>
      "This is exciting! \"" ++ prompt ++ "\" presents incredible opportunities for growth and innovation. I see tremendous potential for positive impact and successful outcomes. The possibilities are endless, and with the right approach, this could lead to remarkable achievements. Let\x27s focus on the bright side and bold opportunities ahead!"
    | Persona.pessimist =>
      "We need to be careful with \"" ++ prompt ++ "\". There are significant risks and potential pitfalls to consider. What could go wrong? Resource constraints, implementation challenges, and unexpected complications are likely. We should identify failure modes and prepare for worst-case scenarios before proceeding."
    | Persona.realist =>
      "Looking at \"" ++ prompt ++ "\" realistically, there are both opportunities and challenges to consider. Success will likely require careful planning, adequate resources, and managing expectations. The most probable outcome involves a balanced approach that addresses practical constraints while pursuing achievable goals."
  { persona := personality, text := fallbackText, color := personaColor }

/-- `getPersonalityFallbackResponses` of `personalityService.ts`. -/
def getPersonalityFallbackResponses (prompt : String) : List PersonalityResponse :=
  [ getPersonalityFallback Persona.optimist prompt,
    getPersonalityFallback Persona.pessimist prompt,
    getPersonalityFallback Persona.realist prompt ]

/-- Outcome of one `genAI.models.generateContent` call for one persona:
the awaited promise either rejects (`err`) or resolves with a response whose
`text` field may be missing (`ok none`) or present (`ok (some t)`). -/
inductive ApiOutcome
  | err
  | ok (text : Option String)

/-- Environment of one `generatePersonalityResponses` invocation:
`noKey` models `GEMINI_API_KEY` being unset (`initializeGenAI` returns
`null`), `crashed` models an unexpected exception reaching the outer
`try/catch`, and `keyed` gives the outcome of each per-persona upstream
call. -/
inductive GenEnv
  | noKey
  | crashed
  | keyed (outcome : Persona → ApiOutcome)

/-- The per-persona closure inside `generatePersonalityResponses`
(`PERSONAS.map(async (persona) => ...)`): an errored call or a missing /
empty / shorter-than-10-characters trimmed text is replaced by the
persona fallback, otherwise the trimmed text is returned verbatim. -/
def personaCall (persona : PersonaCfg) (prompt : String) (outcome : ApiOutcome) :
    PersonalityResponse :=
  match outcome with
  | ApiOutcome.err => getPersonalityFallback persona.name prompt
  | ApiOutcome.ok text =>
    match text with
    | none => getPersonalityFallback persona.name prompt
    | some raw =>
      let cleanedText := jsTrim raw
      if cleanedText == "" || cleanedText.length < 10 then
        getPersonalityFallback persona.name prompt
      else
        { persona := persona.name, text := cleanedText, color := persona.color }

/-- `generatePersonalityResponses` of `personalityService.ts`. -/
def generatePersonalityResponses (prompt : String) (env : GenEnv) :
    List PersonalityResponse :=
  match env with
  | GenEnv.noKey => getPersonalityFallbackResponses prompt
  | GenEnv.crashed => getPersonalityFallbackResponses prompt
  | GenEnv.keyed outcome =>
    let responses := PERSONAS.map (fun persona => personaCall persona prompt (outcome persona.name))
    let validResponses := responses.filter
      (fun r => !(r.text == "") && decide (10 < r.text.length))
    if validResponses.isEmpty then getPersonalityFallbackResponses prompt
    else
      let filled :=
        if validResponses.length < 3 then
          let missingPersonalities := PERSONAS.filter
            (fun p => !(validResponses.any (fun r => decide (r.persona = p.name))))
          validResponses ++ missingPersonalities.map
            (fun p => getPersonalityFallback p.name prompt)
        else validResponses
      ([ filled.find? (fun r => decide (r.persona = Persona.optimist)),
         filled.find? (fun r => decide (r.persona = Persona.pessimist)),
         filled.find? (fun r => decide (r.persona = Persona.realist)) ]).filterMap id

/-- Node type tag (`'prompt' | 'response'` in `shared/types`). -/
inductive NodeType
  | prompt
  | response
deriving DecidableEq

/-- A graph `Node` as built by `graphService.ts`. `parentId`, `persona` and
`color` are absent (`none`) on root prompt nodes; `position` is always
initialised to the origin on the server (D3 overrides it client-side). -/
structure Node where
  id : Nat
  text : String
  parentId : Option Nat := none
  type : NodeType
  position : Int × Int := (0, 0)
  persona : Option Persona := none
  color : Option String := none
deriving DecidableEq

/-- A directed graph `Edge` (source → target). -/
structure Edge where
  id : Nat
  source : Nat
  target : Nat
deriving DecidableEq

/-- A `Session`: the full conversation graph for one initial prompt.
`createdAt` is an opaque timestamp (irrelevant to every claim; modelled as
a constant). -/
structure Session where
  id : Nat
  nodes : List Node
  edges : List Edge
  createdAt : Nat := 0
deriving DecidableEq

/-- The module-level state of `graphService.ts`: the in-memory `sessions`
map (keyed association list, insertion-ordered like a JS `Map`) together
with the UUID supply. -/
structure GraphState where
  nextId : Nat
  sessions : List (Nat × Session)
deriving DecidableEq

/-- The state of `graphService.ts` at module load: empty session map. -/
def initialGraphState : GraphState := { nextId := 0, sessions := [] }

/-- `uuidv4()`: returns a fresh identifier and advances the supply. -/
def freshId (st : GraphState) : Nat × GraphState :=
  (st.nextId, { st with nextId := st.nextId + 1 })

/-- `sessions.get(key)` on the insertion-ordered association list. -/
def findStored (l : List (Nat × Session)) (k : Nat) : Option Session :=
  match l with
  | [] => none
  | (k', v) :: rest => if k' = k then some v else findStored rest k

/-- `sessions.set(key, value)`: replaces the binding if the key is present,
otherwise appends a new binding (JS `Map` insertion-order semantics). -/
def setStored (l : List (Nat × Session)) (k : Nat) (v : Session) :
    List (Nat × Session) :=
  match l with
  | [] => [(k, v)]
  | (k', v') :: rest =>
    if k' = k then (k, v) :: rest else (k', v') :: setStored rest k v

/-- The `personalityResponses.map((response) => ({...}))` node construction
shared by `createSession` and `addBranch`: one `response` node per
personality response, each parented to `parentId`, with fresh ids drawn in
list order. -/
def mkResponseNodes (rs : List PersonalityResponse) (parentId : Nat) (st : GraphState) :
    List Node × GraphState :=
  match rs with
  | [] => ([], st)
  | r :: rest =>
    let (nid, st') := freshId st
    let node : Node :=
      { id := nid, text := r.text, parentId := some parentId, type := NodeType.response,
        position := (0, 0), persona := some r.persona, color := some r.color }
    let (ns, st'') := mkResponseNodes rest parentId st'
    (node :: ns, st'')

/-- The `nodes.map(node => ({id, source, target}))` edge construction: one
edge from `source` to each node of `ns`, with fresh ids drawn in list
order. -/
def mkEdgesTo (source : Nat) (ns : List Node) (st : GraphState) :
    List Edge × GraphState :=
  match ns with
  | [] => ([], st)
  | n :: rest =>
    let (eid, st') := freshId st
    let edge : Edge := { id := eid, source := source, target := n.id }
    let (es, st'') := mkEdgesTo source rest st'
    (edge :: es, st'')

/-- `createSession` of `graphService.ts`: builds the root prompt node, one
response node per personality response fanning out from it, the matching
edges, stores the session and returns it. -/
def createSession (prompt : String) (personalityResponses : List PersonalityResponse)
    (st : GraphState) : Session × GraphState :=
  let (sessionId, st1) := freshId st
  let (rootId, st2) := freshId st1
  let rootNode : Node :=
    { id := rootId, text := prompt, parentId := none, type := NodeType.prompt,
      position := (0, 0) }
  let (responseNodes, st3) := mkResponseNodes personalityResponses rootNode.id st2
  let (edges, st4) := mkEdgesTo rootNode.id responseNodes st3
  let session : Session :=
    { id := sessionId, nodes := rootNode :: responseNodes, edges := edges, createdAt := 0 }
  (session, { st4 with sessions := setStored st4.sessions sessionId session })

/-- `addBranch` of `graphService.ts`. A missing session or parent node
throws (`Except.error`) before any mutation, so the state is returned
untouched on those paths. An empty-string follow-up prompt is falsy in
JavaScript (`if (followUpPrompt)`), so it creates no follow-up node. -/
def addBranch (sessionId parentNodeId : Nat)
    (personalityResponses : List PersonalityResponse) (followUpPrompt : Option String)
    (st : GraphState) : Except String (List Node × List Edge) × GraphState :=
  match findStored st.sessions sessionId with
  | none => (Except.error "Session not found", st)
  | some session =>
    match session.nodes.find? (fun node => decide (node.id = parentNodeId)) with
    | none => (Except.error "Parent node not found", st)
    | some parentNode =>
      let (promptNode?, st1) :=
        match followUpPrompt with
        | some followUp =>
          if followUp == "" then (none, st)
          else
            let (pid, st') := freshId st
            (some ({ id := pid, text := followUp, parentId := some parentNodeId,
                     type := NodeType.prompt, position := (0, 0) } : Node), st')
        | none => (none, st)
      let anchorNodeId := match promptNode? with
        | some promptNode => promptNode.id
        | none => parentNode.id
      let (personalityNodes, st2) := mkResponseNodes personalityResponses anchorNodeId st1
      let newNodes := (match promptNode? with
        | some promptNode => [promptNode]
        | none => []) ++ personalityNodes
      let (promptEdges, st3) :=
        match promptNode? with
        | some promptNode =>
          let (eid, st') := freshId st2
          ([({ id := eid, source := parentNodeId, target := promptNode.id } : Edge)], st')
        | none => ([], st2)
      let (responseEdges, st4) := mkEdgesTo anchorNodeId personalityNodes st3
      let newEdges := promptEdges ++ responseEdges
      let session' : Session :=
        { session with nodes := session.nodes ++ newNodes, edges := session.edges ++ newEdges }
      (Except.ok (newNodes, newEdges),
       { st4 with sessions := setStored st4.sessions sessionId session' })

/-- `addSimpleBranch` of `graphService.ts`: converts plain string responses
to personality responses positionally (optimist, pessimist, realist, and
realist/grey for every index ≥ 3) and delegates to `addBranch` with no
follow-up prompt. -/
def addSimpleBranch (sessionId parentNodeId : Nat) (responses : List String)
    (st : GraphState) : Except String (List Node × List Edge) × GraphState :=
  let personas : List (Persona × String) :=
    [(Persona.optimist, "green"), (Persona.pessimist, "red"), (Persona.realist, "grey")]
  let personalityResponses := responses.mapIdx (fun index response =>
    let persona := (personas.get? index).getD (Persona.realist, "grey")
    ({ persona := persona.1, text := response, color := persona.2 } : PersonalityResponse))
  addBranch sessionId parentNodeId personalityResponses none st

/-- `getSession` of `graphService.ts`. -/
def getSession (sessionId : Nat) (st : GraphState) : Option Session :=
  findStored st.sessions sessionId

/-- The record returned by `getSessionStats`. -/
structure SessionStats where
  totalSessions : Nat
  totalNodes : Nat
  totalEdges : Nat
  averageNodesPerSession : Nat
deriving DecidableEq

/-- `Math.round(a / b)` for natural `a` and positive natural `b`: JavaScript
rounds half towards positive infinity, i.e. `⌊a/b + 1/2⌋ = (2a + b) / (2b)`
in natural division. -/
def jsRoundDiv (a b : Nat) : Nat := (2 * a + b) / (2 * b)

/-- `getSessionStats` of `graphService.ts`: aggregate counters recomputed
from the live store on each call. -/
def getSessionStats (st : GraphState) : SessionStats :=
  let totalSessions := st.sessions.length
  let totalNodes := (st.sessions.map (fun ks => ks.2.nodes.length)).sum
  let totalEdges := (st.sessions.map (fun ks => ks.2.edges.length)).sum
  { totalSessions := totalSessions, totalNodes := totalNodes, totalEdges := totalEdges,
    averageNodesPerSession :=
      if 0 < totalSessions then jsRoundDiv totalNodes totalSessions else 0 }

/-- The response eventually served for one persona configuration by
`generatePersonalityResponses` in the configured (`keyed`) case: the
per-persona call result if its text is strictly longer than 10 characters,
the persona fallback otherwise. Used to characterise the function. -/
def servedResponse (prompt : String) (f : Persona → ApiOutcome) (cfg : PersonaCfg) :
    PersonalityResponse :=
  let r := personaCall cfg prompt (f cfg.name)
  if 10 < r.text.length then r else getPersonalityFallback cfg.name prompt

/-- The colour associated with each persona in the `PERSONAS`
configuration. -/
def personaColor : Persona → String
  | Persona.optimist => "green"
  | Persona.pessimist => "red"
  | Persona.realist => "grey"

/-- The (source, target) pairs encoded by a session's edge collection. -/
def edgePairs (s : Session) : List (Nat × Nat) :=
  s.edges.map (fun e => (e.source, e.target))

/-- The (parent, child) pairs implied by the nodes' `parentId` fields. -/
def parentPairs (s : Session) : List (Nat × Nat) :=
  s.nodes.filterMap (fun n => n.parentId.map (fun p => (p, n.id)))

/-- Session tree integrity: only the first (root) node lacks a `parentId`,
every `parentId` references a node of the same session, the edge collection
mirrors the parent/child pairs exactly, and node ids are pairwise
distinct. -/
def SessionWF (s : Session) : Prop :=
  (∀ n ∈ s.nodes, n.parentId = none → s.nodes.head? = some n) ∧
  (∀ n ∈ s.nodes, ∀ p, n.parentId = some p → ∃ m ∈ s.nodes, m.id = p) ∧
  edgePairs s = parentPairs s ∧
  (s.nodes.map (fun n => n.id)).Nodup

/-- Store invariant: every stored key and every stored node id is below the
id supply, and every stored session is internally well-formed. -/
def StoreWF (st : GraphState) : Prop :=
  ∀ ks ∈ st.sessions, ks.1 < st.nextId ∧ SessionWF ks.2 ∧
    ∀ n ∈ ks.2.nodes, n.id < st.nextId

/-- Arguments of one `addBranch` call directed at a fixed session. -/
structure BranchCall where
  parentNodeId : Nat
  responses : List PersonalityResponse
  followUpPrompt : Option String

/-- Runs a sequence of `addBranch` calls against session `sid`.  A call that
throws (unknown parent) leaves the state untouched, exactly as the thrown
exception leaves the store untouched in the service. -/
def runBranchCalls (sid : Nat) (calls : List BranchCall) (st : GraphState) : GraphState :=
  calls.foldl
    (fun st c => (addBranch sid c.parentNodeId c.responses c.followUpPrompt st).2) st

/-- One public graph-service operation. -/
inductive GraphOp
  | create (prompt : String) (rs : List PersonalityResponse)
  | branch (sid pid : Nat) (rs : List PersonalityResponse) (fu : Option String)
  | simpleBranch (sid pid : Nat) (rs : List String)
  | get (sid : Nat)
  | stats

/-- The state transition of one graph-service operation (`getSession` and
`getSessionStats` are pure reads). -/
def applyGraphOp (op : GraphOp) (st : GraphState) : GraphState :=
  match op with
  | GraphOp.create prompt rs => (createSession prompt rs st).2
  | GraphOp.branch sid pid rs fu => (addBranch sid pid rs fu st).2
  | GraphOp.simpleBranch sid pid rs => (addSimpleBranch sid pid rs st).2
  | GraphOp.get _ => st
  | GraphOp.stats => st

/-- Runs a sequence of graph-service operations. -/
def runGraphOps (ops : List GraphOp) (st : GraphState) : GraphState :=
  ops.foldl (fun st op => applyGraphOp op st) st

/-- A JSON value handed to the patched `res.send`: either a graph response
object (an object carrying a `nodes` field) or some other already-serialised
payload string. -/
inductive ResponseBody
  | graph (sessionId : Nat) (nodes : List Node) (edges : List Edge)
  | other (payload : String)
deriving DecidableEq

/-- Lower-case hexadecimal digit. -/
def hexDigit (n : Nat) : Char :=
  if n < 10 then Char.ofNat (48 + n) else Char.ofNat (87 + n)

/-- `JSON.stringify` escaping of one character inside a string literal. -/
def jsonEscapeChar (c : Char) : String :=
  if c = '"' then "\\\""
  else if c = '\\' then "\\\\"
  else if c = '\x08' then "\\b"
  else if c = '\t' then "\\t"
  else if c = '\n' then "\\n"
  else if c = '\x0c' then "\\f"
  else if c = '\r' then "\\r"
  else if c.toNat < 32 then
    "\\u00" ++ String.mk [hexDigit (c.toNat / 16), hexDigit (c.toNat % 16)]
  else String.singleton c

/-- `JSON.stringify` escaping of a whole string body. -/
def jsonEscape (s : String) : String :=
  s.data.foldr (fun c acc => jsonEscapeChar c ++ acc) ""

/-- A JSON string literal. -/
def jsonStr (s : String) : String := "\"" ++ jsonEscape s ++ "\""

/-- JSON text of a node type tag. -/
def nodeTypeJson : NodeType → String
  | NodeType.prompt => "prompt"
  | NodeType.response => "response"

/-- JSON text of a persona tag. -/
def personaJson : Persona → String
  | Persona.optimist => "optimist"
  | Persona.pessimist => "pessimist"
  | Persona.realist => "realist"

/-- JSON text of a position record. -/
def posJson (p : Int × Int) : String :=
  "\x7b\"x\":" ++ toString p.1 ++ ",\"y\":" ++ toString p.2 ++ "\x7d"

/-- `JSON.stringify` of one node object, in property-creation order;
`undefined` optional fields are omitted, as in JavaScript. -/
def nodeJson (n : Node) : String :=
  "\x7b\"id\":" ++ toString n.id ++
  ",\"text\":" ++ jsonStr n.text ++
  (match n.parentId with
   | some p => ",\"parentId\":" ++ toString p
   | none => "") ++
  ",\"type\":" ++ jsonStr (nodeTypeJson n.type) ++
  ",\"position\":" ++ posJson n.position ++
  (match n.persona with
   | some p => ",\"persona\":" ++ jsonStr (personaJson p)
   | none => "") ++
  (match n.color with
   | some c => ",\"color\":" ++ jsonStr c
   | none => "") ++
  "\x7d"

/-- `JSON.stringify` of one edge object. -/
def edgeJson (e : Edge) : String :=
  "\x7b\"id\":" ++ toString e.id ++ ",\"source\":" ++ toString e.source ++
  ",\"target\":" ++ toString e.target ++ "\x7d"

/-- Comma-separated concatenation (JSON array elements). -/
def joinComma : List String → String
  | [] => ""
  | [s] => s
  | s :: rest => s ++ "," ++ joinComma rest

/-- JSON array literal. -/
def arrJson (l : List String) : String := "[" ++ joinComma l ++ "]"

/-- `JSON.stringify` of a response body. -/
def stringifyBody : ResponseBody → String
  | ResponseBody.graph sessionId nodes edges =>
    "\x7b\"sessionId\":" ++ toString sessionId ++
    ",\"nodes\":" ++ arrJson (nodes.map nodeJson) ++
    ",\"edges\":" ++ arrJson (edges.map edgeJson) ++ "\x7d"
  | ResponseBody.other payload => jsonStr payload

/-- `Buffer.byteLength(JSON.stringify(body), 'utf8')` as computed by the
`limitResponseSize` middleware of `security.ts`. -/
def jsonByteLength (body : ResponseBody) : Nat := (stringifyBody body).utf8ByteSize

/-- The body transformation performed by the patched `res.send` installed by
`limitResponseSize(maxSize)` in `security.ts`: if the serialised body
exceeds `maxSize` and the body is an object carrying `nodes`, each node
text longer than 200 characters is replaced by its first 200 characters
plus an ellipsis; otherwise the body passes through unchanged. -/
def limitResponseSizeBody (maxSize : Nat) (body : ResponseBody) : ResponseBody :=
  let responseSize := jsonByteLength body
  if maxSize < responseSize then
    match body with
    | ResponseBody.graph sessionId nodes edges =>
      ResponseBody.graph sessionId
        (nodes.map (fun node =>
          { node with
            text := if 200 < node.text.length
                    then node.text.take 200 ++ "..." else node.text }))
        edges
    | ResponseBody.other payload => ResponseBody.other payload
  else body

/-- An HTTP reply: status code plus body. -/
structure HttpReply where
  status : Nat
  body : ResponseBody
deriving DecidableEq

/-- The patched `res.send` delegates to the original `send` on the same
response object with the (possibly truncated) body: the status set by the
route handler is untouched and no error path is introduced. -/
def limitResponseSizeSend (maxSize status : Nat) (body : ResponseBody) : HttpReply :=
  { status := status, body := limitResponseSizeBody maxSize body }

/-- The fixed ceiling installed by `app.use(limitResponseSize())`:
64 KB. -/
def RESPONSE_SIZE_LIMIT : Nat := 64 * 1024

/-- The nodes carried by a response body (empty for non-graph bodies). -/
def bodyNodes : ResponseBody → List Node
  | ResponseBody.graph _ nodes _ => nodes
  | ResponseBody.other _ => []

/-- A 70000-character text, used to build an oversized response body. -/
def longText : String := String.mk (List.replicate 70000 'a')

/-- A response node with a 70000-character text. -/
def longNode : Node :=
  { id := 1, text := longText, parentId := some 0, type := NodeType.response,
    position := (0, 0), persona := some Persona.realist, color := some "grey" }

/-- A response node with a 2-character text. -/
def shortNode : Node :=
  { id := 2, text := "hi", parentId := some 0, type := NodeType.response,
    position := (0, 0), persona := some Persona.optimist, color := some "green" }

/-- A graph response body whose serialised JSON exceeds the 64 KB ceiling
and which contains a short-text node. -/
def oversizedBody : ResponseBody := ResponseBody.graph 0 [longNode, shortNode] []

/-- A store holding two sessions with 4 and 1 nodes respectively: the exact
average nodes per session is 5/2. -/
def statsDemoState : GraphState :=
  (createSession "b" []
    (createSession "a" (getPersonalityFallbackResponses "a") initialGraphState).2).2

/-- The root node of a minimal demo session. -/
def demoRootNode : Node :=
  { id := 1, text := "a", parentId := none, type := NodeType.prompt,
    position := (0, 0) }

/-- The session produced by `createSession "a" []` from the initial state. -/
def demoRootSession : Session :=
  { id := 0, nodes := [demoRootNode], edges := [], createdAt := 0 }

/-- The store after `createSession "a" []` from the initial state. -/
def demoBranchState : GraphState :=
  (createSession "a" [] initialGraphState).2

/-- A sample upstream environment where every call succeeds with a long
text. -/
def demoOutcome : Persona → ApiOutcome :=
  fun _ => ApiOutcome.ok (some "plenty of text to serve here")

/-- The response served for the optimist under `demoOutcome`. -/
def demoServed : PersonalityResponse :=
  { persona := Persona.optimist, text := jsTrim "plenty of text to serve here",
    color := "green" }

/-- The persona of a fallback response is the requested persona. -/
@[simp]
theorem getPersonalityFallback_persona (p : Persona) (prompt : String) :
    (getPersonalityFallback p prompt).persona = p := by
  cases p <;> rfl

/-- The name fields of the persona configurations. -/
@[simp]
theorem optimistCfg_name : optimistCfg.name = Persona.optimist := rfl

/-- The name fields of the persona configurations. -/
@[simp]
theorem pessimistCfg_name : pessimistCfg.name = Persona.pessimist := rfl

/-- The name fields of the persona configurations. -/
@[simp]
theorem realistCfg_name : realistCfg.name = Persona.realist := rfl

/-- The per-persona call always answers with the requested persona. -/
@[simp]
theorem personaCall_persona (cfg : PersonaCfg) (prompt : String) (o : ApiOutcome) :
    (personaCall cfg prompt o).persona = cfg.name := by
  cases o with
  | err => simp [personaCall]
  | ok t =>
    cases t with
    | none => simp [personaCall]
    | some raw =>
      simp only [personaCall]
      split
      · simp
      · rfl

/-- Every fallback text is strictly longer than 10 characters. -/
theorem getPersonalityFallback_text_long (p : Persona) (prompt : String) :
    10 < (getPersonalityFallback p prompt).text.length := by
  cases p
  case optimist =>
    have h : 10 < ("This is exciting! \"" : String).length := by decide
    simp only [getPersonalityFallback, String.length_append]
    omega
  case pessimist =>
    have h : 10 < ("We need to be careful with \"" : String).length := by decide
    simp only [getPersonalityFallback, String.length_append]
    omega
  case realist =>
    have h : 10 < ("Looking at \"" : String).length := by decide
    simp only [getPersonalityFallback, String.length_append]
    omega

/-- The validity filter of `generatePersonalityResponses` collapses to the
length test: a text longer than 10 characters is in particular non-empty. -/
theorem validFilter_eq (r : PersonalityResponse) :
    (!(r.text == "") && decide (10 < r.text.length)) = decide (10 < r.text.length) := by
  cases h : r.text == ""
  · simp [h]
  · have ht : r.text = "" := by simpa using h
    simp [h, ht]

/-- The persona of a served response is the configured persona. -/
@[simp]
theorem servedResponse_persona (prompt : String) (f : Persona → ApiOutcome)
    (cfg : PersonaCfg) : (servedResponse prompt f cfg).persona = cfg.name := by
  unfold servedResponse
  by_cases h : 10 < (personaCall cfg prompt (f cfg.name)).text.length <;> simp [h]

/-- Characterisation of `generatePersonalityResponses` in the configured
case: the result is exactly one served response per configured persona, in
configuration order. -/
theorem generate_keyed_eq (prompt : String) (f : Persona → ApiOutcome) :
    generatePersonalityResponses prompt (GenEnv.keyed f) =
      [servedResponse prompt f optimistCfg,
       servedResponse prompt f pessimistCfg,
       servedResponse prompt f realistCfg] := by
  have hfb : ∀ p, 10 < (getPersonalityFallback p prompt).text.length :=
    fun p => getPersonalityFallback_text_long p prompt
  simp only [generatePersonalityResponses, PERSONAS, List.map_cons, List.map_nil,
    optimistCfg_name, pessimistCfg_name, realistCfg_name]
  have hfilter : ∀ l : List PersonalityResponse,
      l.filter (fun r => !(r.text == "") && decide (10 < r.text.length)) =
        l.filter (fun r => decide (10 < r.text.length)) :=
    fun l => List.filter_congr (fun x _ => validFilter_eq x)
  rw [hfilter]
  generalize hc1 : personaCall optimistCfg prompt (f Persona.optimist) = c1
  generalize hc2 : personaCall pessimistCfg prompt (f Persona.pessimist) = c2
  generalize hc3 : personaCall realistCfg prompt (f Persona.realist) = c3
  have hp1 : c1.persona = Persona.optimist := by rw [← hc1]; simp
  have hp2 : c2.persona = Persona.pessimist := by rw [← hc2]; simp
  have hp3 : c3.persona = Persona.realist := by rw [← hc3]; simp
  have hs1 : servedResponse prompt f optimistCfg =
      if 10 < c1.text.length then c1 else getPersonalityFallback Persona.optimist prompt := by
    simp only [servedResponse, optimistCfg_name, hc1]
  have hs2 : servedResponse prompt f pessimistCfg =
      if 10 < c2.text.length then c2 else getPersonalityFallback Persona.pessimist prompt := by
    simp only [servedResponse, pessimistCfg_name, hc2]
  have hs3 : servedResponse prompt f realistCfg =
      if 10 < c3.text.length then c3 else getPersonalityFallback Persona.realist prompt := by
    simp only [servedResponse, realistCfg_name, hc3]
  rw [hs1, hs2, hs3]
  by_cases b1 : 10 < c1.text.length <;> by_cases b2 : 10 < c2.text.length <;>
    by_cases b3 : 10 < c3.text.length <;>
    simp [List.filter, b1, b2, b3, hp1, hp2, hp3, List.find?,
      getPersonalityFallbackResponses, hfb]

/-- The colour fields of the persona configurations. -/
@[simp]
theorem optimistCfg_color : optimistCfg.color = "green" := rfl

/-- The colour fields of the persona configurations. -/
@[simp]
theorem pessimistCfg_color : pessimistCfg.color = "red" := rfl

/-- The colour fields of the persona configurations. -/
@[simp]
theorem realistCfg_color : realistCfg.color = "grey" := rfl

/-- Full behavioural specification of one served response: the trimmed
upstream text verbatim when the call succeeded and the trimmed text is
strictly longer than 10 characters, the persona fallback in every other
case (error, missing text, or trimmed length at most 10). -/
theorem servedResponse_spec (prompt : String) (f : Persona → ApiOutcome)
    (cfg : PersonaCfg) :
    servedResponse prompt f cfg =
      match f cfg.name with
      | ApiOutcome.ok (some raw) =>
        if 10 < (jsTrim raw).length then
          { persona := cfg.name, text := jsTrim raw, color := cfg.color }
        else getPersonalityFallback cfg.name prompt
      | ApiOutcome.ok none => getPersonalityFallback cfg.name prompt
      | ApiOutcome.err => getPersonalityFallback cfg.name prompt := by
  unfold servedResponse
  cases hf : f cfg.name with
  | err => simp [hf, personaCall, getPersonalityFallback_text_long]
  | ok t =>
    cases t with
    | none => simp [hf, personaCall, getPersonalityFallback_text_long]
    | some raw =>
      simp only [hf, personaCall]
      by_cases h10 : 10 < (jsTrim raw).length
      · have hne : (jsTrim raw == "") = false := by
          apply beq_eq_false_iff_ne.mpr
          intro h
          rw [h] at h10
          simp at h10
        have hlt : ¬ (jsTrim raw).length < 10 := by omega
        simp [hne, hlt, h10]
      · cases hcond : (jsTrim raw == "" || decide ((jsTrim raw).length < 10))
        · simp [hcond, h10]
        · simp [hcond, h10, getPersonalityFallback_text_long]

/-- C1: for every input prompt and every upstream environment — success,
errors on any subset of the three per-persona calls, degenerate text, or
no API key configured — `generatePersonalityResponses` returns exactly 3
responses whose personas are exactly optimist, pessimist, realist, in that
fixed order. -/
theorem claim_C1 (prompt : String) (env : GenEnv) :
    (generatePersonalityResponses prompt env).map (fun r => r.persona) =
      [Persona.optimist, Persona.pessimist, Persona.realist] := by
  cases env with
  | noKey => simp [generatePersonalityResponses, getPersonalityFallbackResponses]
  | crashed => simp [generatePersonalityResponses, getPersonalityFallbackResponses]
  | keyed f =>
    rw [generate_keyed_eq]
    simp

/-- C6: for every prompt and every persona, the fallback response text is
strictly longer than 10 characters and contains the input prompt as a
literal substring. -/
theorem claim_C6 (p : Persona) (prompt : String) :
    10 < (getPersonalityFallback p prompt).text.length ∧
    ∃ pre post, (getPersonalityFallback p prompt).text = pre ++ prompt ++ post := by
  refine ⟨getPersonalityFallback_text_long p prompt, ?_⟩
  cases p
  case optimist =>
    exact ⟨"This is exciting! \"", "\" presents incredible opportunities for growth and innovation. I see tremendous potential for positive impact and successful outcomes. The possibilities are endless, and with the right approach, this could lead to remarkable achievements. Let\x27s focus on the bright side and bold opportunities ahead!", rfl⟩
  case pessimist =>
    exact ⟨"We need to be careful with \"", "\". There are significant risks and potential pitfalls to consider. What could go wrong? Resource constraints, implementation challenges, and unexpected complications are likely. We should identify failure modes and prepare for worst-case scenarios before proceeding.", rfl⟩
  case realist =>
    exact ⟨"Looking at \"", "\" realistically, there are both opportunities and challenges to consider. Success will likely require careful planning, adequate resources, and managing expectations. The most probable outcome involves a balanced approach that addresses practical constraints while pursuing achievable goals.", rfl⟩

/-- C4 counterexample: a successful call whose trimmed text has exactly 10
characters (so: at least 10) is NOT returned verbatim — the 10-character
text passes the per-call check (`< 10`) but is then removed by the strict
`length > 10` validity filter and replaced by the persona fallback. -/
theorem claim_C4_counterexample :
    10 ≤ (jsTrim "abcdefghij").length ∧
    (generatePersonalityResponses "topic"
        (GenEnv.keyed (fun _ => ApiOutcome.ok (some "abcdefghij")))).map
      (fun r => r.text) ≠
      [jsTrim "abcdefghij", jsTrim "abcdefghij", jsTrim "abcdefghij"] := by
  decide

/-- C4 (amended): a persona's final response is the persona's static
fallback if and only if the call errors, returns no text, or its trimmed
text has at most 10 characters; a successful call whose trimmed text has
strictly more than 10 characters is returned verbatim. -/
theorem claim_C4 (prompt : String) (f : Persona → ApiOutcome) (p : Persona)
    (r : PersonalityResponse)
    (hr : (generatePersonalityResponses prompt (GenEnv.keyed f)).find?
        (fun x => decide (x.persona = p)) = some r) :
    r = match f p with
        | ApiOutcome.ok (some raw) =>
          if 10 < (jsTrim raw).length then
            { persona := p, text := jsTrim raw, color := personaColor p }
          else getPersonalityFallback p prompt
        | ApiOutcome.ok none => getPersonalityFallback p prompt
        | ApiOutcome.err => getPersonalityFallback p prompt := by
  rw [generate_keyed_eq] at hr
  cases p
  case optimist =>
    have hr' : r = servedResponse prompt f optimistCfg := by
      rw [List.find?_cons_of_pos _ (by simp)] at hr
      exact (Option.some.inj hr).symm
    rw [hr', servedResponse_spec]
    cases hf : f Persona.optimist with
    | err => simp [hf]
    | ok t => cases t <;> simp [hf, personaColor]
  case pessimist =>
    have hr' : r = servedResponse prompt f pessimistCfg := by
      rw [List.find?_cons_of_neg _ (by simp), List.find?_cons_of_pos _ (by simp)] at hr
      exact (Option.some.inj hr).symm
    rw [hr', servedResponse_spec]
    cases hf : f Persona.pessimist with
    | err => simp [hf]
    | ok t => cases t <;> simp [hf, personaColor]
  case realist =>
    have hr' : r = servedResponse prompt f realistCfg := by
      rw [List.find?_cons_of_neg _ (by simp), List.find?_cons_of_neg _ (by simp),
        List.find?_cons_of_pos _ (by simp)] at hr
      exact (Option.some.inj hr).symm
    rw [hr', servedResponse_spec]
    cases hf : f Persona.realist with
    | err => simp [hf]
    | ok t => cases t <;> simp [hf, personaColor]

/-- C4 witness: the amended claim applied to a concrete successful call
with a long text, which is served verbatim. -/
theorem claim_C4_witness :
    ((generatePersonalityResponses "topic" (GenEnv.keyed demoOutcome)).find?
        (fun x => decide (x.persona = Persona.optimist)) = some demoServed) ∧
    demoServed =
      match demoOutcome Persona.optimist with
      | ApiOutcome.ok (some raw) =>
        if 10 < (jsTrim raw).length then
          { persona := Persona.optimist, text := jsTrim raw,
            color := personaColor Persona.optimist }
        else getPersonalityFallback Persona.optimist "topic"
      | ApiOutcome.ok none => getPersonalityFallback Persona.optimist "topic"
      | ApiOutcome.err => getPersonalityFallback Persona.optimist "topic" :=
  ⟨by decide, claim_C4 "topic" demoOutcome Persona.optimist demoServed (by decide)⟩

/-- `Map.get` after `Map.set` at the same key yields the new value. -/
theorem findStored_setStored_self (l : List (Nat × Session)) (k : Nat) (v : Session) :
    findStored (setStored l k v) k = some v := by
  induction l with
  | nil => simp [setStored, findStored]
  | cons hd tl ih =>
    obtain ⟨k', v'⟩ := hd
    by_cases h : k' = k
    · simp [setStored, findStored, h]
    · simp [setStored, findStored, h, ih]

/-- `Map.get` after `Map.set` at a different key is unchanged. -/
theorem findStored_setStored_ne (l : List (Nat × Session)) (k k' : Nat) (v : Session)
    (h : k ≠ k') : findStored (setStored l k' v) k = findStored l k := by
  have h' : ¬ k' = k := fun he => h he.symm
  induction l with
  | nil => simp [setStored, findStored, h']
  | cons hd tl ih =>
    obtain ⟨k0, v0⟩ := hd
    by_cases h0 : k0 = k'
    · subst h0
      simp [setStored, findStored, h']
    · by_cases h1 : k0 = k
      · subst h1
        simp [setStored, findStored, h0]
      · simp [setStored, findStored, h0, h1, ih]

/-- A successful lookup exposes a member of the association list. -/
theorem findStored_mem (l : List (Nat × Session)) (k : Nat) (s : Session)
    (h : findStored l k = some s) : (k, s) ∈ l := by
  induction l with
  | nil => simp [findStored] at h
  | cons hd tl ih =>
    obtain ⟨k0, v0⟩ := hd
    by_cases h0 : k0 = k
    · subst h0
      simp [findStored] at h
      simp [h]
    · simp [findStored, h0] at h
      exact List.mem_cons_of_mem _ (ih h)

/-- Every binding after `Map.set` is the new binding or an old one. -/
theorem mem_setStored {l : List (Nat × Session)} {k : Nat} {v : Session}
    {ks : Nat × Session} (h : ks ∈ setStored l k v) : ks = (k, v) ∨ ks ∈ l := by
  induction l with
  | nil => simpa [setStored] using h
  | cons hd tl ih =>
    obtain ⟨k0, v0⟩ := hd
    by_cases h0 : k0 = k
    · simp [setStored, h0] at h
      rcases h with h | h
      · exact Or.inl h
      · exact Or.inr (List.mem_cons_of_mem _ h)
    · simp [setStored, h0] at h
      rcases h with h | h
      · exact Or.inr (by simp [h])
      · rcases ih h with h' | h'
        · exact Or.inl h'
        · exact Or.inr (List.mem_cons_of_mem _ h')

/-- State effect of the response-node constructor: the id supply advances
by the number of responses; the stored sessions are untouched. -/
theorem mkResponseNodes_snd (rs : List PersonalityResponse) (pid : Nat) (st : GraphState) :
    (mkResponseNodes rs pid st).2 = { st with nextId := st.nextId + rs.length } := by
  induction rs generalizing st with
  | nil => simp [mkResponseNodes]
  | cons r rest ih =>
    simp only [mkResponseNodes, freshId, ih, List.length_cons]
    congr 1
    omega

/-- The ids of the constructed response nodes are the next `rs.length`
fresh ids, in order. -/
theorem mkResponseNodes_ids (rs : List PersonalityResponse) (pid : Nat) (st : GraphState) :
    ((mkResponseNodes rs pid st).1).map (fun n => n.id) =
      List.range' st.nextId rs.length := by
  induction rs generalizing st with
  | nil => simp [mkResponseNodes]
  | cons r rest ih => simp [mkResponseNodes, freshId, ih, List.range'_succ]

/-- One node is constructed per response. -/
theorem mkResponseNodes_length (rs : List PersonalityResponse) (pid : Nat) (st : GraphState) :
    (mkResponseNodes rs pid st).1.length = rs.length := by
  have := congrArg List.length (mkResponseNodes_ids rs pid st)
  simpa using this

/-- Every constructed response node is a `response` node parented to the
requested parent. -/
theorem mkResponseNodes_forall (rs : List PersonalityResponse) (pid : Nat) (st : GraphState) :
    ∀ n ∈ (mkResponseNodes rs pid st).1,
      n.parentId = some pid ∧ n.type = NodeType.response := by
  induction rs generalizing st with
  | nil => simp [mkResponseNodes]
  | cons r rest ih =>
    intro n hn
    simp only [mkResponseNodes, freshId, List.mem_cons] at hn
    rcases hn with hn | hn
    · subst hn
      exact ⟨rfl, rfl⟩
    · exact ih _ n hn

/-- Texts, personas and colours of the constructed nodes match the
responses, positionally. -/
theorem mkResponseNodes_fields (rs : List PersonalityResponse) (pid : Nat) (st : GraphState) :
    ((mkResponseNodes rs pid st).1).map (fun n => (n.text, n.persona, n.color)) =
      rs.map (fun r => (r.text, some r.persona, some r.color)) := by
  induction rs generalizing st with
  | nil => simp [mkResponseNodes]
  | cons r rest ih => simp [mkResponseNodes, freshId, ih]

/-- State effect of the edge constructor. -/
theorem mkEdgesTo_snd (src : Nat) (ns : List Node) (st : GraphState) :
    (mkEdgesTo src ns st).2 = { st with nextId := st.nextId + ns.length } := by
  induction ns generalizing st with
  | nil => simp [mkEdgesTo]
  | cons n rest ih =>
    simp only [mkEdgesTo, freshId, ih, List.length_cons]
    congr 1
    omega

/-- The (source, target) pairs of the constructed edges: one edge from the
source to each node, in order. -/
theorem mkEdgesTo_pairs (src : Nat) (ns : List Node) (st : GraphState) :
    (mkEdgesTo src ns st).1.map (fun e => (e.source, e.target)) =
      ns.map (fun n => (src, n.id)) := by
  induction ns generalizing st with
  | nil => simp [mkEdgesTo]
  | cons n rest ih => simp [mkEdgesTo, freshId, ih]

/-- One edge is constructed per node. -/
theorem mkEdgesTo_length (src : Nat) (ns : List Node) (st : GraphState) :
    (mkEdgesTo src ns st).1.length = ns.length := by
  have := congrArg List.length (mkEdgesTo_pairs src ns st)
  simpa using this


/-- Success path of `addBranch` without follow-up text (absent or empty
string, which is falsy in JavaScript): the new nodes are exactly the
response nodes anchored to the parent, with one matching edge each. -/
theorem addBranch_noFollow_spec (st : GraphState) (sid pid : Nat)
    (rs : List PersonalityResponse) (fu : Option String)
    (session : Session) (parentNode : Node)
    (hs : findStored st.sessions sid = some session)
    (hp : session.nodes.find? (fun node => decide (node.id = pid)) = some parentNode)
    (hfu : fu = none ∨ fu = some "") :
    ∃ respNodes newEdges st',
      addBranch sid pid rs fu st = (Except.ok (respNodes, newEdges), st') ∧
      respNodes = (mkResponseNodes rs parentNode.id st).1 ∧
      newEdges.map (fun e => (e.source, e.target)) =
        respNodes.map (fun n => (parentNode.id, n.id)) ∧
      newEdges.length = rs.length ∧
      st'.nextId = st.nextId + rs.length + rs.length ∧
      st'.sessions = setStored st.sessions sid
        { session with
          nodes := session.nodes ++ respNodes,
          edges := session.edges ++ newEdges } := by
  have heq : addBranch sid pid rs fu st =
      (Except.ok ((mkResponseNodes rs parentNode.id st).1,
        (mkEdgesTo parentNode.id (mkResponseNodes rs parentNode.id st).1
          (mkResponseNodes rs parentNode.id st).2).1),
       { (mkEdgesTo parentNode.id (mkResponseNodes rs parentNode.id st).1
           (mkResponseNodes rs parentNode.id st).2).2 with
         sessions := setStored
           ((mkEdgesTo parentNode.id (mkResponseNodes rs parentNode.id st).1
             (mkResponseNodes rs parentNode.id st).2).2).sessions sid
           { session with
             nodes := session.nodes ++ (mkResponseNodes rs parentNode.id st).1,
             edges := session.edges ++
               (mkEdgesTo parentNode.id (mkResponseNodes rs parentNode.id st).1
                 (mkResponseNodes rs parentNode.id st).2).1 } }) := by
    rcases hfu with hfu | hfu <;> subst hfu <;>
      simp only [addBranch, hs, hp, List.nil_append, beq_self_eq_true, if_true]
  refine ⟨_, _, _, heq, rfl, mkEdgesTo_pairs _ _ _, ?_, ?_, ?_⟩
  · rw [mkEdgesTo_length, mkResponseNodes_length]
  · simp only [mkEdgesTo_snd, mkResponseNodes_snd, mkResponseNodes_length] <;> omega
  · simp only [mkEdgesTo_snd, mkResponseNodes_snd]

/-- Success path of `addBranch` with a non-empty follow-up prompt: one
follow-up prompt node parented to the original parent, the response nodes
anchored to the follow-up node, and one edge per new node. -/
theorem addBranch_follow_spec (st : GraphState) (sid pid : Nat)
    (rs : List PersonalityResponse) (t : String)
    (session : Session) (parentNode : Node)
    (hs : findStored st.sessions sid = some session)
    (hp : session.nodes.find? (fun node => decide (node.id = pid)) = some parentNode)
    (ht : ¬ t = "") :
    ∃ promptNode respNodes newEdges st',
      addBranch sid pid rs (some t) st =
        (Except.ok (promptNode :: respNodes, newEdges), st') ∧
      promptNode = { id := st.nextId, text := t, parentId := some pid,
                     type := NodeType.prompt, position := (0, 0) } ∧
      respNodes = (mkResponseNodes rs st.nextId { st with nextId := st.nextId + 1 }).1 ∧
      newEdges.map (fun e => (e.source, e.target)) =
        (pid, st.nextId) :: respNodes.map (fun n => (st.nextId, n.id)) ∧
      newEdges.length = 1 + rs.length ∧
      st'.nextId = st.nextId + 1 + rs.length + 1 + rs.length ∧
      st'.sessions = setStored st.sessions sid
        { session with
          nodes := session.nodes ++ promptNode :: respNodes,
          edges := session.edges ++ newEdges } := by
  have htb : (t == "") = false := beq_eq_false_iff_ne.mpr ht
  have heq : addBranch sid pid rs (some t) st =
      (Except.ok
        (({ id := st.nextId, text := t, parentId := some pid,
            type := NodeType.prompt, position := (0, 0) } : Node) ::
          (mkResponseNodes rs st.nextId { st with nextId := st.nextId + 1 }).1,
         ({ id := ((mkResponseNodes rs st.nextId { st with nextId := st.nextId + 1 }).2).nextId,
            source := pid, target := st.nextId } : Edge) ::
          (mkEdgesTo st.nextId
            (mkResponseNodes rs st.nextId { st with nextId := st.nextId + 1 }).1
            { (mkResponseNodes rs st.nextId { st with nextId := st.nextId + 1 }).2 with
              nextId :=
                ((mkResponseNodes rs st.nextId { st with nextId := st.nextId + 1 }).2).nextId
                  + 1 }).1),
       { (mkEdgesTo st.nextId
           (mkResponseNodes rs st.nextId { st with nextId := st.nextId + 1 }).1
           { (mkResponseNodes rs st.nextId { st with nextId := st.nextId + 1 }).2 with
             nextId :=
               ((mkResponseNodes rs st.nextId { st with nextId := st.nextId + 1 }).2).nextId
                 + 1 }).2 with
         sessions := setStored
           ((mkEdgesTo st.nextId
             (mkResponseNodes rs st.nextId { st with nextId := st.nextId + 1 }).1
             { (mkResponseNodes rs st.nextId { st with nextId := st.nextId + 1 }).2 with
               nextId :=
                 ((mkResponseNodes rs st.nextId { st with nextId := st.nextId + 1 }).2).nextId
                   + 1 }).2).sessions sid
           { session with
             nodes := session.nodes ++
               ({ id := st.nextId, text := t, parentId := some pid,
                  type := NodeType.prompt, position := (0, 0) } : Node) ::
               (mkResponseNodes rs st.nextId { st with nextId := st.nextId + 1 }).1,
             edges := session.edges ++
               ({ id := ((mkResponseNodes rs st.nextId
                   { st with nextId := st.nextId + 1 }).2).nextId,
                  source := pid, target := st.nextId } : Edge) ::
               (mkEdgesTo st.nextId
                 (mkResponseNodes rs st.nextId { st with nextId := st.nextId + 1 }).1
                 { (mkResponseNodes rs st.nextId { st with nextId := st.nextId + 1 }).2 with
                   nextId :=
                     ((mkResponseNodes rs st.nextId
                       { st with nextId := st.nextId + 1 }).2).nextId + 1 }).1 } }) := by
    simp only [addBranch, hs, hp, htb, Bool.false_eq_true, if_false, freshId,
      List.singleton_append, List.cons_append, List.nil_append]
  refine ⟨_, _, _, _, heq, rfl, rfl, ?_, ?_, ?_, ?_⟩
  · simp [mkEdgesTo_pairs]
  · simp only [List.length_cons, mkEdgesTo_length, mkResponseNodes_length] <;> omega
  · simp only [mkEdgesTo_snd, mkResponseNodes_snd, mkResponseNodes_length] <;> omega
  · simp only [mkEdgesTo_snd, mkResponseNodes_snd]

/-- Characterisation of `createSession`: a fresh session id, a root prompt
node carrying the prompt, one response node per personality response
parented to the root, one matching edge each, and the session stored under
its id. -/
theorem createSession_spec (prompt : String) (rs : List PersonalityResponse)
    (st : GraphState) :
    ∃ sess st',
      createSession prompt rs st = (sess, st') ∧
      sess.id = st.nextId ∧
      sess.nodes =
        ({ id := st.nextId + 1, text := prompt, parentId := none,
           type := NodeType.prompt, position := (0, 0) } : Node) ::
        (mkResponseNodes rs (st.nextId + 1) { st with nextId := st.nextId + 1 + 1 }).1 ∧
      sess.edges.map (fun e => (e.source, e.target)) =
        ((mkResponseNodes rs (st.nextId + 1)
          { st with nextId := st.nextId + 1 + 1 }).1).map
          (fun n => (st.nextId + 1, n.id)) ∧
      sess.edges.length = rs.length ∧
      st'.nextId = st.nextId + 1 + 1 + rs.length + rs.length ∧
      st'.sessions = setStored st.sessions st.nextId sess := by
  have heq : createSession prompt rs st =
      ({ id := st.nextId,
         nodes :=
           ({ id := st.nextId + 1, text := prompt, parentId := none,
              type := NodeType.prompt, position := (0, 0) } : Node) ::
           (mkResponseNodes rs (st.nextId + 1)
             { st with nextId := st.nextId + 1 + 1 }).1,
         edges :=
           (mkEdgesTo (st.nextId + 1)
             (mkResponseNodes rs (st.nextId + 1)
               { st with nextId := st.nextId + 1 + 1 }).1
             (mkResponseNodes rs (st.nextId + 1)
               { st with nextId := st.nextId + 1 + 1 }).2).1,
         createdAt := 0 },
       { (mkEdgesTo (st.nextId + 1)
           (mkResponseNodes rs (st.nextId + 1)
             { st with nextId := st.nextId + 1 + 1 }).1
           (mkResponseNodes rs (st.nextId + 1)
             { st with nextId := st.nextId + 1 + 1 }).2).2 with
         sessions := setStored
           ((mkEdgesTo (st.nextId + 1)
             (mkResponseNodes rs (st.nextId + 1)
               { st with nextId := st.nextId + 1 + 1 }).1
             (mkResponseNodes rs (st.nextId + 1)
               { st with nextId := st.nextId + 1 + 1 }).2).2).sessions st.nextId
           { id := st.nextId,
             nodes :=
               ({ id := st.nextId + 1, text := prompt, parentId := none,
                  type := NodeType.prompt, position := (0, 0) } : Node) ::
               (mkResponseNodes rs (st.nextId + 1)
                 { st with nextId := st.nextId + 1 + 1 }).1,
             edges :=
               (mkEdgesTo (st.nextId + 1)
                 (mkResponseNodes rs (st.nextId + 1)
                   { st with nextId := st.nextId + 1 + 1 }).1
                 (mkResponseNodes rs (st.nextId + 1)
                   { st with nextId := st.nextId + 1 + 1 }).2).1,
             createdAt := 0 } }) := by
    simp only [createSession, freshId]
  refine ⟨_, _, heq, rfl, rfl, ?_, ?_, ?_, ?_⟩
  · simp [mkEdgesTo_pairs]
  · simp only [mkEdgesTo_length, mkResponseNodes_length]
  · simp only [mkEdgesTo_snd, mkResponseNodes_snd, mkResponseNodes_length] <;> omega
  · simp only [mkEdgesTo_snd, mkResponseNodes_snd]

/-- The parent pairs of a batch of nodes that all share one parent. -/
theorem filterMap_parent_of_forall (ns : List Node) (pid : Nat)
    (h : ∀ n ∈ ns, n.parentId = some pid) :
    ns.filterMap (fun n => n.parentId.map (fun p => (p, n.id))) =
      ns.map (fun n => (pid, n.id)) := by
  induction ns with
  | nil => simp
  | cons n rest ih =>
    have hn := h n (List.mem_cons_self n rest)
    simp [List.filterMap_cons, hn, ih (fun m hm => h m (List.mem_cons_of_mem _ hm))]

/-- Id range of the constructed response nodes. -/
theorem mkResponseNodes_id_bounds (rs : List PersonalityResponse) (pid : Nat)
    (st : GraphState) :
    ∀ n ∈ (mkResponseNodes rs pid st).1,
      st.nextId ≤ n.id ∧ n.id < st.nextId + rs.length := by
  intro n hn
  have : n.id ∈ ((mkResponseNodes rs pid st).1).map (fun n => n.id) :=
    List.mem_map_of_mem _ hn
  rw [mkResponseNodes_ids] at this
  exact List.mem_range'_1.mp this

/-- A successful `find?` on a node id yields a member with that id. -/
theorem find?_node_id {session : Session} {pid : Nat} {parentNode : Node}
    (hp : session.nodes.find? (fun node => decide (node.id = pid)) = some parentNode) :
    parentNode ∈ session.nodes ∧ parentNode.id = pid := by
  refine ⟨List.mem_of_find?_eq_some hp, ?_⟩
  have := List.find?_some hp
  simpa using this

/-- Appending a batch of new nodes and their mirroring edges preserves
session tree integrity. -/
theorem sessionWF_append (session : Session) (newNodes : List Node)
    (newEdges : List Edge) (hwfs : SessionWF session)
    (h1 : ∀ n ∈ newNodes, n.parentId ≠ none)
    (h2 : ∀ n ∈ newNodes, ∀ p, n.parentId = some p →
      ∃ m ∈ session.nodes ++ newNodes, m.id = p)
    (h3 : newEdges.map (fun e => (e.source, e.target)) =
      newNodes.filterMap (fun n => n.parentId.map (fun p => (p, n.id))))
    (h4 : ((session.nodes ++ newNodes).map (fun n => n.id)).Nodup) :
    SessionWF { session with
      nodes := session.nodes ++ newNodes,
      edges := session.edges ++ newEdges } := by
  obtain ⟨w1, w2, w3, _⟩ := hwfs
  refine ⟨?_, ?_, ?_, h4⟩
  · intro n hn hnone
    simp only [List.mem_append] at hn
    rcases hn with hn | hn
    · have hh := w1 n hn hnone
      cases hmem : session.nodes with
      | nil => rw [hmem] at hh; simp at hh
      | cons a l =>
        rw [hmem] at hh
        simpa [hmem] using hh
    · exact absurd hnone (h1 n hn)
  · intro n hn p hp
    simp only [List.mem_append] at hn
    rcases hn with hn | hn
    · obtain ⟨m, hm, hid⟩ := w2 n hn p hp
      exact ⟨m, List.mem_append_left _ hm, hid⟩
    · exact h2 n hn p hp
  · show edgePairs _ = parentPairs _
    simp only [edgePairs, parentPairs] at w3 ⊢
    simp only [List.map_append, List.filterMap_append, w3, h3]

/-- `createSession` preserves the store invariant. -/
theorem createSession_storeWF (prompt : String) (rs : List PersonalityResponse)
    (st : GraphState) (hwf : StoreWF st) : StoreWF (createSession prompt rs st).2 := by
  obtain ⟨sess, st', heq, hid, hnodes, hpairs, helen, hnext, hsess⟩ :=
    createSession_spec prompt rs st
  rw [heq]
  show StoreWF st'
  intro ks hks
  rw [hsess] at hks
  have hrespAll := mkResponseNodes_forall rs (st.nextId + 1)
    { st with nextId := st.nextId + 1 + 1 }
  have hrespIds := mkResponseNodes_id_bounds rs (st.nextId + 1)
    { st with nextId := st.nextId + 1 + 1 }
  rcases mem_setStored hks with h | h
  · subst h
    refine ⟨by omega, ?_, ?_⟩
    · refine ⟨?_, ?_, ?_, ?_⟩
      · intro n hn hnone
        rw [hnodes] at hn ⊢
        rcases List.mem_cons.mp hn with hn | hn
        · simp [hn]
        · exact absurd hnone (by simp [(hrespAll n hn).1])
      · intro n hn p hp
        rw [hnodes] at hn
        rcases List.mem_cons.mp hn with hn | hn
        · subst hn; simp at hp
        · have := (hrespAll n hn).1
          rw [this] at hp
          refine ⟨_, by rw [hnodes]; exact List.mem_cons_self _ _, ?_⟩
          simp at hp
          simp [hp]
      · show edgePairs _ = parentPairs _
        simp only [edgePairs, parentPairs, hpairs, hnodes, List.filterMap_cons]
        simp [filterMap_parent_of_forall _ _ (fun n hn => (hrespAll n hn).1)]
      · rw [hnodes]
        simp only [List.map_cons, List.nodup_cons, mkResponseNodes_ids]
        constructor
        · intro hmem
          have := List.mem_range'_1.mp hmem
          omega
        · exact List.nodup_range' _ _
    · intro n hn
      rw [hnodes] at hn
      rcases List.mem_cons.mp hn with hn | hn
      · simp [hn]; omega
      · have := (hrespIds n hn).2
        simp only at this
        omega
  · obtain ⟨hk, hsw, hnb⟩ := hwf ks h
    exact ⟨by omega, hsw, fun n hn => by have := hnb n hn; omega⟩

/-- `addBranch` preserves the store invariant (on error paths the state is
untouched; on success the appended nodes and edges keep the session
well-formed). -/
theorem addBranch_storeWF (sid pid : Nat) (rs : List PersonalityResponse)
    (fu : Option String) (st : GraphState) (hwf : StoreWF st) :
    StoreWF (addBranch sid pid rs fu st).2 := by
  cases hfind : findStored st.sessions sid with
  | none => simpa only [addBranch, hfind] using hwf
  | some session =>
    cases hp : session.nodes.find? (fun node => decide (node.id = pid)) with
    | none => simpa only [addBranch, hfind, hp] using hwf
    | some parentNode =>
      obtain ⟨hmem, hpid⟩ := find?_node_id hp
      obtain ⟨hkey, hsw, hnb⟩ := hwf (sid, session) (findStored_mem _ _ _ hfind)
      by_cases hfu : fu = none ∨ fu = some ""
      · obtain ⟨respNodes, newEdges, st', heq, hresp, hpairs, helen, hnext, hsess⟩ :=
          addBranch_noFollow_spec st sid pid rs fu session parentNode hfind hp hfu
        rw [heq]
        show StoreWF st'
        intro ks hks
        rw [hsess] at hks
        have hrespAll := mkResponseNodes_forall rs parentNode.id st
        have hrespIds := mkResponseNodes_id_bounds rs parentNode.id st
        rcases mem_setStored hks with h | h
        · subst h
          refine ⟨by omega, ?_, ?_⟩
          · refine sessionWF_append session respNodes newEdges hsw ?_ ?_ ?_ ?_
            · intro n hn
              rw [hresp] at hn
              simp [(hrespAll n hn).1]
            · intro n hn p hpp
              rw [hresp] at hn
              rw [(hrespAll n hn).1] at hpp
              refine ⟨parentNode, List.mem_append_left _ hmem, ?_⟩
              simp at hpp
              simp [hpp]
            · rw [hpairs, hresp,
                filterMap_parent_of_forall _ _ (fun n hn => (hrespAll n hn).1)]
            · rw [List.map_append]
              rw [List.nodup_append]
              refine ⟨hsw.2.2.2, ?_, ?_⟩
              · rw [hresp, mkResponseNodes_ids]
                exact List.nodup_range' _ _
              · intro x hx hx'
                have hxlt : x < st.nextId := by
                  obtain ⟨n, hn, hnx⟩ := List.mem_map.mp hx
                  have := hnb n hn
                  omega
                rw [hresp, mkResponseNodes_ids] at hx'
                have := List.mem_range'_1.mp hx'
                omega
          · intro n hn
            simp only [List.mem_append] at hn
            rcases hn with hn | hn
            · have := hnb n hn
              omega
            · rw [hresp] at hn
              have := (hrespIds n hn).2
              omega
        · obtain ⟨hk, hsw', hnb'⟩ := hwf ks h
          exact ⟨by omega, hsw', fun n hn => by have := hnb' n hn; omega⟩
      · obtain ⟨t, htf, htne⟩ : ∃ t, fu = some t ∧ ¬ t = "" := by
          cases fu with
          | none => exact absurd (Or.inl rfl) hfu
          | some t =>
            exact ⟨t, rfl, fun h => hfu (Or.inr (by rw [h]))⟩
        subst htf
        obtain ⟨promptNode, respNodes, newEdges, st', heq, hpn, hresp, hpairs, helen,
          hnext, hsess⟩ := addBranch_follow_spec st sid pid rs t session parentNode
            hfind hp htne
        rw [heq]
        show StoreWF st'
        intro ks hks
        rw [hsess] at hks
        have hrespAll := mkResponseNodes_forall rs st.nextId
          { st with nextId := st.nextId + 1 }
        have hrespIds := mkResponseNodes_id_bounds rs st.nextId
          { st with nextId := st.nextId + 1 }
        rcases mem_setStored hks with h | h
        · subst h
          refine ⟨by omega, ?_, ?_⟩
          · refine sessionWF_append session (promptNode :: respNodes) newEdges hsw
              ?_ ?_ ?_ ?_
            · intro n hn
              rcases List.mem_cons.mp hn with hn | hn
              · subst hn
                simp [hpn]
              · rw [hresp] at hn
                simp [(hrespAll n hn).1]
            · intro n hn p hpp
              rcases List.mem_cons.mp hn with hn | hn
              · subst hn
                simp only [hpn, Option.some.injEq] at hpp
                refine ⟨parentNode, List.mem_append_left _ hmem, by omega⟩
              · rw [hresp] at hn
                rw [(hrespAll n hn).1] at hpp
                simp only [Option.some.injEq] at hpp
                refine ⟨promptNode,
                  List.mem_append_right _ (List.mem_cons_self _ _), ?_⟩
                simp only [hpn]
                omega
            · rw [hpairs, hresp, List.filterMap_cons,
                filterMap_parent_of_forall _ _ (fun n hn => (hrespAll n hn).1)]
              simp [hpn]
            · rw [List.map_append]
              rw [List.nodup_append]
              refine ⟨hsw.2.2.2, ?_, ?_⟩
              · simp only [List.map_cons, List.nodup_cons, hresp, mkResponseNodes_ids,
                  hpn]
                constructor
                · intro hmemx
                  have := List.mem_range'_1.mp hmemx
                  simp only at this
                  omega
                · exact List.nodup_range' _ _
              · intro x hx hx'
                have hxlt : x < st.nextId := by
                  obtain ⟨n, hn, hnx⟩ := List.mem_map.mp hx
                  have := hnb n hn
                  omega
                simp only [List.map_cons, List.mem_cons, hresp, mkResponseNodes_ids,
                  hpn] at hx'
                rcases hx' with hx' | hx'
                · omega
                · have := List.mem_range'_1.mp hx'
                  simp only at this
                  omega
          · intro n hn
            simp only [List.mem_append, List.mem_cons] at hn
            rcases hn with hn | hn | hn
            · have := hnb n hn
              omega
            · subst hn
              rw [hpn]
              simp only
              omega
            · rw [hresp] at hn
              have := (hrespIds n hn).2
              simp only at this
              omega
        · obtain ⟨hk, hsw', hnb'⟩ := hwf ks h
          exact ⟨by omega, hsw', fun n hn => by have := hnb' n hn; omega⟩

/-- The store invariant holds at module load (empty session map). -/
theorem initial_storeWF : StoreWF initialGraphState := by
  intro ks hks
  simp [initialGraphState] at hks

/-- Any sequence of `addBranch` calls preserves the store invariant. -/
theorem runBranchCalls_storeWF (sid : Nat) (calls : List BranchCall)
    (st : GraphState) (hwf : StoreWF st) : StoreWF (runBranchCalls sid calls st) := by
  induction calls generalizing st with
  | nil => simpa [runBranchCalls] using hwf
  | cons c rest ih =>
    simp only [runBranchCalls, List.foldl_cons]
    exact ih _ (addBranch_storeWF sid c.parentNodeId c.responses c.followUpPrompt st hwf)

/-- From the mirrored pair lists: for every (parent, child) pair, the number
of edges encoding it equals the number of child nodes declaring it. -/
theorem edge_count_of_pairs (s : Session) (h : edgePairs s = parentPairs s)
    (p c : Nat) :
    (s.edges.filter (fun e => decide (e.source = p) && decide (e.target = c))).length =
      (s.nodes.filter (fun n =>
        decide (n.parentId = some p) && decide (n.id = c))).length := by
  rw [← List.countP_eq_length_filter, ← List.countP_eq_length_filter]
  have hL : List.countP (fun e => decide (e.source = p) && decide (e.target = c)) s.edges
      = List.countP (fun pr : Nat × Nat => decide (pr.1 = p) && decide (pr.2 = c))
        (edgePairs s) := by
    rw [edgePairs, List.countP_map]
    rfl
  have hR : List.countP (fun n => decide (n.parentId = some p) && decide (n.id = c))
        s.nodes
      = List.countP (fun pr : Nat × Nat => decide (pr.1 = p) && decide (pr.2 = c))
        (parentPairs s) := by
    rw [parentPairs, List.countP_filterMap]
    apply List.countP_congr
    intro n _
    cases hpar : n.parentId <;> simp [hpar]
  rw [hL, hR, h]

/-- C2: after one `createSession` followed by any sequence of `addBranch`
calls on the resulting session, every node except the root prompt node has
a `parentId` referencing a node existing in that session, and the edge
collection mirrors the parent/child pairs exactly — in particular it holds
exactly one edge per parent/child pair implied by `parentId`. -/
theorem claim_C2 (prompt : String) (rs : List PersonalityResponse)
    (calls : List BranchCall) (s : Session)
    (hs : getSession (createSession prompt rs initialGraphState).1.id
        (runBranchCalls (createSession prompt rs initialGraphState).1.id calls
          (createSession prompt rs initialGraphState).2) = some s) :
    (∀ n ∈ s.nodes, n.parentId = none → s.nodes.head? = some n) ∧
    (∀ n ∈ s.nodes, ∀ p, n.parentId = some p → ∃ m ∈ s.nodes, m.id = p) ∧
    edgePairs s = parentPairs s ∧
    ∀ p c,
      (s.edges.filter (fun e =>
        decide (e.source = p) && decide (e.target = c))).length =
      (s.nodes.filter (fun n =>
        decide (n.parentId = some p) && decide (n.id = c))).length := by
  have hwf1 := createSession_storeWF prompt rs initialGraphState initial_storeWF
  have hwf2 := runBranchCalls_storeWF (createSession prompt rs initialGraphState).1.id
    calls _ hwf1
  have hks := findStored_mem _ _ _ hs
  obtain ⟨_, hsw, _⟩ := hwf2 _ hks
  obtain ⟨w1, w2, w3, _⟩ := hsw
  exact ⟨w1, w2, w3, fun p c => edge_count_of_pairs s w3 p c⟩

/-- C2 witness: the session obtained from one `createSession` with no
responses and no branch calls. -/
theorem claim_C2_witness :
    (∀ n ∈ demoRootSession.nodes, n.parentId = none →
      demoRootSession.nodes.head? = some n) ∧
    (∀ n ∈ demoRootSession.nodes, ∀ p, n.parentId = some p →
      ∃ m ∈ demoRootSession.nodes, m.id = p) ∧
    edgePairs demoRootSession = parentPairs demoRootSession ∧
    ∀ p c,
      (demoRootSession.edges.filter (fun e =>
        decide (e.source = p) && decide (e.target = c))).length =
      (demoRootSession.nodes.filter (fun n =>
        decide (n.parentId = some p) && decide (n.id = c))).length :=
  claim_C2 "a" [] [] demoRootSession (by decide)

/-- C3: `addBranch` on an unknown session id, or on a parent node id that
identifies no node of the found session, throws the corresponding
not-found error and leaves the whole store — hence every stored session's
node and edge collections — exactly as it was: the lookups happen before
any append. -/
theorem claim_C3 (st : GraphState) (sid pid : Nat) (rs : List PersonalityResponse)
    (fu : Option String)
    (h : findStored st.sessions sid = none ∨
      ∃ session, findStored st.sessions sid = some session ∧
        session.nodes.find? (fun n => decide (n.id = pid)) = none) :
    (∃ msg, (addBranch sid pid rs fu st).1 = Except.error msg) ∧
    (addBranch sid pid rs fu st).2 = st := by
  rcases h with h | ⟨session, hfind, hp⟩
  · exact ⟨⟨"Session not found", by simp only [addBranch, h]⟩,
      by simp only [addBranch, h]⟩
  · exact ⟨⟨"Parent node not found", by simp only [addBranch, hfind, hp]⟩,
      by simp only [addBranch, hfind, hp]⟩

/-- C3 witness: branching in the empty store errors and changes nothing. -/
theorem claim_C3_witness :
    (∃ msg, (addBranch 0 0 [] none initialGraphState).1 = Except.error msg) ∧
    (addBranch 0 0 [] none initialGraphState).2 = initialGraphState :=
  claim_C3 initialGraphState 0 0 [] none (Or.inl (by decide))

/-- Every graph-service operation preserves the store invariant. -/
theorem applyGraphOp_storeWF (op : GraphOp) (st : GraphState) (hwf : StoreWF st) :
    StoreWF (applyGraphOp op st) := by
  cases op with
  | create prompt rs => exact createSession_storeWF prompt rs st hwf
  | branch sid pid rs fu => exact addBranch_storeWF sid pid rs fu st hwf
  | simpleBranch sid pid rs =>
    show StoreWF (addSimpleBranch sid pid rs st).2
    exact addBranch_storeWF sid pid _ none st hwf
  | get _ => exact hwf
  | stats => exact hwf

/-- Session collections never shrink across one operation: the stored node
and edge lists of every session are preserved as prefixes. -/
theorem applyGraphOp_prefix (op : GraphOp) (st : GraphState) (hwf : StoreWF st)
    (sid : Nat) (s : Session) (hs : findStored st.sessions sid = some s) :
    ∃ s', findStored (applyGraphOp op st).sessions sid = some s' ∧
      s.nodes <+: s'.nodes ∧ s.edges <+: s'.edges := by
  have hbranch : ∀ sid' pid' rs' fu',
      ∃ s', findStored ((addBranch sid' pid' rs' fu' st).2).sessions sid = some s' ∧
        s.nodes <+: s'.nodes ∧ s.edges <+: s'.edges := by
    intro sid' pid' rs' fu'
    cases hfind : findStored st.sessions sid' with
    | none =>
      refine ⟨s, ?_, List.prefix_refl _, List.prefix_refl _⟩
      simp only [addBranch, hfind]
      exact hs
    | some session =>
      cases hp : session.nodes.find? (fun node => decide (node.id = pid')) with
      | none =>
        refine ⟨s, ?_, List.prefix_refl _, List.prefix_refl _⟩
        simp only [addBranch, hfind, hp]
        exact hs
      | some parentNode =>
        have hgen : ∀ (newNodes : List Node) (newEdges : List Edge) (st' : GraphState),
            st'.sessions = setStored st.sessions sid'
              { session with
                nodes := session.nodes ++ newNodes,
                edges := session.edges ++ newEdges } →
            (addBranch sid' pid' rs' fu' st).2 = st' →
            ∃ s', findStored ((addBranch sid' pid' rs' fu' st).2).sessions sid = some s' ∧
              s.nodes <+: s'.nodes ∧ s.edges <+: s'.edges := by
          intro newNodes newEdges st' hsess heq
          rw [heq]
          by_cases hsid : sid = sid'
          · subst hsid
            have : session = s := by
              rw [hfind] at hs
              exact Option.some.inj hs
            subst this
            refine ⟨_, by rw [hsess]; exact findStored_setStored_self _ _ _, ?_, ?_⟩
            · exact List.prefix_append _ _
            · exact List.prefix_append _ _
          · refine ⟨s, ?_, List.prefix_refl _, List.prefix_refl _⟩
            rw [hsess, findStored_setStored_ne _ _ _ _ hsid]
            exact hs
        by_cases hfu : fu' = none ∨ fu' = some ""
        · obtain ⟨respNodes, newEdges, st', heq, _, _, _, _, hsess⟩ :=
            addBranch_noFollow_spec st sid' pid' rs' fu' session parentNode hfind hp hfu
          exact hgen respNodes newEdges st' hsess (by rw [heq])
        · obtain ⟨t, htf, htne⟩ : ∃ t, fu' = some t ∧ ¬ t = "" := by
            cases fu' with
            | none => exact absurd (Or.inl rfl) hfu
            | some t => exact ⟨t, rfl, fun h => hfu (Or.inr (by rw [h]))⟩
          subst htf
          obtain ⟨promptNode, respNodes, newEdges, st', heq, _, _, _, _, _, hsess⟩ :=
            addBranch_follow_spec st sid' pid' rs' t session parentNode hfind hp htne
          exact hgen (promptNode :: respNodes) newEdges st' hsess (by rw [heq])
  cases op with
  | create prompt rs =>
    obtain ⟨sess, st', heq, _, _, _, _, _, hsess⟩ := createSession_spec prompt rs st
    refine ⟨s, ?_, List.prefix_refl _, List.prefix_refl _⟩
    show findStored ((createSession prompt rs st).2).sessions sid = some s
    rw [heq]
    have hklt : sid < st.nextId := (hwf (sid, s) (findStored_mem _ _ _ hs)).1
    have hne : sid ≠ st.nextId := by omega
    rw [hsess, findStored_setStored_ne _ _ _ _ hne]
    exact hs
  | branch sid' pid' rs' fu' => exact hbranch sid' pid' rs' fu'
  | simpleBranch sid' pid' rs' =>
    show ∃ s', findStored ((addSimpleBranch sid' pid' rs' st).2).sessions sid = some s' ∧
      s.nodes <+: s'.nodes ∧ s.edges <+: s'.edges
    exact hbranch sid' pid' _ none
  | get _ => exact ⟨s, hs, List.prefix_refl _, List.prefix_refl _⟩
  | stats => exact ⟨s, hs, List.prefix_refl _, List.prefix_refl _⟩

/-- Session collections never shrink across any operation sequence. -/
theorem runGraphOps_prefix (ops : List GraphOp) (st : GraphState) (hwf : StoreWF st)
    (sid : Nat) (s : Session) (hs : findStored st.sessions sid = some s) :
    ∃ s', findStored (runGraphOps ops st).sessions sid = some s' ∧
      s.nodes <+: s'.nodes ∧ s.edges <+: s'.edges := by
  induction ops generalizing st s with
  | nil => exact ⟨s, hs, List.prefix_refl _, List.prefix_refl _⟩
  | cons op rest ih =>
    obtain ⟨s1, hs1, hn1, he1⟩ := applyGraphOp_prefix op st hwf sid s hs
    obtain ⟨s2, hs2, hn2, he2⟩ := ih (applyGraphOp op st)
      (applyGraphOp_storeWF op st hwf) s1 hs1
    exact ⟨s2, hs2, hn1.trans hn2, he1.trans he2⟩

/-- The store invariant holds in every reachable state. -/
theorem runGraphOps_storeWF (ops : List GraphOp) (st : GraphState)
    (hwf : StoreWF st) : StoreWF (runGraphOps ops st) := by
  induction ops generalizing st with
  | nil => simpa [runGraphOps] using hwf
  | cons op rest ih =>
    simp only [runGraphOps, List.foldl_cons]
    exact ih _ (applyGraphOp_storeWF op st hwf)

/-- C5: for every session stored in any reachable state, the node and edge
collections never shrink across any further sequence of graph-service
operations (`createSession`, `addBranch`, `addSimpleBranch`, `getSession`,
`getSessionStats`): the old collections remain prefixes — nothing is ever
removed or replaced, each operation only appends or leaves them
unchanged. -/
theorem claim_C5 (pre ops : List GraphOp) (sid : Nat) (s : Session)
    (hs : getSession sid (runGraphOps pre initialGraphState) = some s) :
    ∃ s', getSession sid (runGraphOps ops (runGraphOps pre initialGraphState)) = some s' ∧
      s.nodes <+: s'.nodes ∧ s.edges <+: s'.edges :=
  runGraphOps_prefix ops (runGraphOps pre initialGraphState)
    (runGraphOps_storeWF pre initialGraphState initial_storeWF) sid s hs

/-- C5 witness: the session created by one `createSession` survives a
subsequent `getSessionStats` read with its collections intact. -/
theorem claim_C5_witness :
    ∃ s', getSession 0 (runGraphOps [GraphOp.stats]
        (runGraphOps [GraphOp.create "a" []] initialGraphState)) = some s' ∧
      demoRootSession.nodes <+: s'.nodes ∧ demoRootSession.edges <+: s'.edges :=
  claim_C5 [GraphOp.create "a" []] [GraphOp.stats] 0 demoRootSession (by decide)

/-- Personas of the constructed response nodes, positionally. -/
theorem mkResponseNodes_personas (rs : List PersonalityResponse) (pid : Nat)
    (st : GraphState) :
    ((mkResponseNodes rs pid st).1).map (fun n => n.persona) =
      rs.map (fun r => some r.persona) := by
  induction rs generalizing st with
  | nil => simp [mkResponseNodes]
  | cons r rest ih => simp [mkResponseNodes, freshId, ih]

/-- Colours of the constructed response nodes, positionally. -/
theorem mkResponseNodes_colors (rs : List PersonalityResponse) (pid : Nat)
    (st : GraphState) :
    ((mkResponseNodes rs pid st).1).map (fun n => n.color) =
      rs.map (fun r => some r.color) := by
  induction rs generalizing st with
  | nil => simp [mkResponseNodes]
  | cons r rest ih => simp [mkResponseNodes, freshId, ih]

/-- Mapping a projection that only depends on the index over `mapIdx`
yields a map over the index range. -/
theorem mapIdx_map_const {α β : Type} (f : Nat → String → α) (g : α → β)
    (G : Nat → β) (hG : ∀ i a, g (f i a) = G i) (l : List String) :
    (l.mapIdx f).map g = (List.range l.length).map G := by
  induction l generalizing f G with
  | nil => simp
  | cons a l ih =>
    rw [List.mapIdx_cons, List.map_cons, hG, List.length_cons,
      List.range_succ_eq_map, List.map_cons,
      ih (fun i x => f (i + 1) x) (fun i => G (i + 1)) (fun i a => hG (i + 1) a),
      List.map_map]
    rfl

/-- C7: for an existing session and parent node, `addBranch` with a
3-element persona-response list and a non-empty follow-up text returns
exactly 4 new nodes — one follow-up prompt node whose `parentId` is the
original parent's id, plus 3 response nodes — and exactly 4 new edges; the
3 response nodes' `parentId` all equal the new follow-up prompt node's id,
which differs from the original parent's id. -/
theorem claim_C7 (st : GraphState) (sid pid : Nat) (rs : List PersonalityResponse)
    (t : String) (session : Session) (parentNode : Node)
    (hs : findStored st.sessions sid = some session)
    (hp : session.nodes.find? (fun node => decide (node.id = pid)) = some parentNode)
    (hb : ∀ n ∈ session.nodes, n.id < st.nextId)
    (hlen : rs.length = 3) (ht : ¬ t = "") :
    ∃ promptNode respNodes newEdges st',
      addBranch sid pid rs (some t) st =
        (Except.ok (promptNode :: respNodes, newEdges), st') ∧
      (promptNode :: respNodes).length = 4 ∧
      newEdges.length = 4 ∧
      promptNode.type = NodeType.prompt ∧
      promptNode.parentId = some pid ∧
      respNodes.length = 3 ∧
      (∀ n ∈ respNodes, n.type = NodeType.response ∧
        n.parentId = some promptNode.id) ∧
      promptNode.id ≠ pid := by
  obtain ⟨promptNode, respNodes, newEdges, st', heq, hpn, hresp, hpairs, helen,
    hnext, hsess⟩ := addBranch_follow_spec st sid pid rs t session parentNode hs hp ht
  obtain ⟨hmem, hpid⟩ := find?_node_id hp
  have hrespAll := mkResponseNodes_forall rs st.nextId
    { st with nextId := st.nextId + 1 }
  refine ⟨promptNode, respNodes, newEdges, st', heq, ?_, ?_, ?_, ?_, ?_, ?_, ?_⟩
  · simp [hresp, mkResponseNodes_length, hlen]
  · rw [helen, hlen]
  · simp [hpn]
  · simp [hpn]
  · rw [hresp, mkResponseNodes_length, hlen]
  · intro n hn
    rw [hresp] at hn
    refine ⟨(hrespAll n hn).2, ?_⟩
    rw [(hrespAll n hn).1, hpn]
  · have hlt : parentNode.id < st.nextId := hb parentNode hmem
    simp only [hpn]
    omega

/-- C7 witness: branching with a follow-up from the root of a freshly
created session. -/
theorem claim_C7_witness :
    ∃ promptNode respNodes newEdges st',
      addBranch 0 1 (getPersonalityFallbackResponses "a") (some "next")
          demoBranchState =
        (Except.ok (promptNode :: respNodes, newEdges), st') ∧
      (promptNode :: respNodes).length = 4 ∧
      newEdges.length = 4 ∧
      promptNode.type = NodeType.prompt ∧
      promptNode.parentId = some 1 ∧
      respNodes.length = 3 ∧
      (∀ n ∈ respNodes, n.type = NodeType.response ∧
        n.parentId = some promptNode.id) ∧
      promptNode.id ≠ 1 :=
  claim_C7 demoBranchState 0 1 (getPersonalityFallbackResponses "a") "next"
    demoRootSession demoRootNode (by decide) (by decide) (by decide) (by decide)
    (by decide)

/-- C10: `addSimpleBranch` with n string responses creates exactly n
response nodes whose personas and colours are assigned by list position —
optimist/green at index 0, pessimist/red at index 1, realist/grey at index
2 and at every index beyond — so for n ≠ 3 the branch violates the
exactly-3-responses-per-user-action invariant, and for n > 3 the persona
realist appears on at least two sibling response nodes. -/
theorem claim_C10 (st : GraphState) (sid pid : Nat) (rs : List String)
    (session : Session) (parentNode : Node)
    (hs : findStored st.sessions sid = some session)
    (hp : session.nodes.find? (fun node => decide (node.id = pid)) = some parentNode) :
    ∃ newNodes newEdges st',
      addSimpleBranch sid pid rs st = (Except.ok (newNodes, newEdges), st') ∧
      newNodes.length = rs.length ∧
      newEdges.length = rs.length ∧
      (∀ n ∈ newNodes, n.type = NodeType.response ∧ n.parentId = some parentNode.id) ∧
      newNodes.map (fun n => n.persona) = (List.range rs.length).map (fun i =>
        some (if i = 0 then Persona.optimist
              else if i = 1 then Persona.pessimist else Persona.realist)) ∧
      newNodes.map (fun n => n.color) = (List.range rs.length).map (fun i =>
        some (if i = 0 then "green" else if i = 1 then "red" else "grey")) ∧
      (rs.length ≠ 3 → newNodes.length ≠ 3) ∧
      (3 < rs.length →
        2 ≤ (newNodes.filter
          (fun n => decide (n.persona = some Persona.realist))).length) := by
  obtain ⟨respNodes, newEdges, st', heq, hresp, hpairs, helen, hnext, hsess⟩ :=
    addBranch_noFollow_spec st sid pid
      (rs.mapIdx (fun index response =>
        let persona := (([(Persona.optimist, "green"), (Persona.pessimist, "red"),
          (Persona.realist, "grey")].get? index).getD (Persona.realist, "grey"))
        ({ persona := persona.1, text := response, color := persona.2 } :
          PersonalityResponse)))
      none session parentNode hs hp (Or.inl rfl)
  have heq' : addSimpleBranch sid pid rs st = (Except.ok (respNodes, newEdges), st') :=
    heq
  have hpersonaMap : respNodes.map (fun n => n.persona) =
      (List.range rs.length).map (fun i =>
        some (if i = 0 then Persona.optimist
              else if i = 1 then Persona.pessimist else Persona.realist)) := by
    rw [hresp, mkResponseNodes_personas]
    exact mapIdx_map_const _ _ _
      (fun i a => by
        match i with
        | 0 => rfl
        | 1 => rfl
        | 2 => rfl
        | (n + 3) => rfl) rs
  have hcolorMap : respNodes.map (fun n => n.color) =
      (List.range rs.length).map (fun i =>
        some (if i = 0 then "green" else if i = 1 then "red" else "grey")) := by
    rw [hresp, mkResponseNodes_colors]
    exact mapIdx_map_const _ _ _
      (fun i a => by
        match i with
        | 0 => rfl
        | 1 => rfl
        | 2 => rfl
        | (n + 3) => rfl) rs
  have hlenNodes : respNodes.length = rs.length := by
    have := congrArg List.length hpersonaMap
    simpa using this
  refine ⟨respNodes, newEdges, st', heq', hlenNodes, ?_, ?_, hpersonaMap, hcolorMap,
    ?_, ?_⟩
  · rw [helen]
    have := congrArg List.length hpersonaMap
    simp at this
    have hidx := congrArg List.length
      (mapIdx_map_const (fun index response =>
        let persona := (([(Persona.optimist, "green"), (Persona.pessimist, "red"),
          (Persona.realist, "grey")].get? index).getD (Persona.realist, "grey"))
        ({ persona := persona.1, text := response, color := persona.2 } :
          PersonalityResponse))
        (fun n => some n.persona)
        (fun i => some (if i = 0 then Persona.optimist
              else if i = 1 then Persona.pessimist else Persona.realist))
        (fun i a => by
          match i with
          | 0 => rfl
          | 1 => rfl
          | 2 => rfl
          | (n + 3) => rfl) rs)
    simpa using hidx
  · intro n hn
    rw [hresp] at hn
    exact ⟨(mkResponseNodes_forall _ _ _ n hn).2, (mkResponseNodes_forall _ _ _ n hn).1⟩
  · intro hne3
    rw [hlenNodes]
    exact hne3
  · intro h4
    obtain ⟨k, hk⟩ : ∃ k, rs.length = 4 + k := ⟨rs.length - 4, by omega⟩
    rw [← List.countP_eq_length_filter]
    have hcnt : List.countP (fun n => decide (n.persona = some Persona.realist)) respNodes
        = List.countP (fun o : Option Persona => decide (o = some Persona.realist))
          (respNodes.map (fun n => n.persona)) := by
      rw [List.countP_map]
      rfl
    rw [hcnt, hpersonaMap, List.countP_map, hk,
      show 4 + k = k + 4 from Nat.add_comm 4 k, List.range_eq_range',
      ← List.range'_append 0 4 k 1, List.countP_append]
    have h2 : List.countP ((fun o : Option Persona =>
        decide (o = some Persona.realist)) ∘ (fun i =>
          some (if i = 0 then Persona.optimist
                else if i = 1 then Persona.pessimist else Persona.realist)))
        (List.range' 0 4) = 2 := by decide
    simp only [Nat.zero_add, Nat.one_mul] at *
    omega

/-- C10 witness: a 5-response simple branch from the root of a freshly
created session. -/
theorem claim_C10_witness :
    ∃ newNodes newEdges st',
      addSimpleBranch 0 1 ["a", "b", "c", "d", "e"] demoBranchState =
        (Except.ok (newNodes, newEdges), st') ∧
      newNodes.length = (["a", "b", "c", "d", "e"] : List String).length ∧
      newEdges.length = (["a", "b", "c", "d", "e"] : List String).length ∧
      (∀ n ∈ newNodes, n.type = NodeType.response ∧ n.parentId = some demoRootNode.id) ∧
      newNodes.map (fun n => n.persona) =
        (List.range (["a", "b", "c", "d", "e"] : List String).length).map (fun i =>
          some (if i = 0 then Persona.optimist
                else if i = 1 then Persona.pessimist else Persona.realist)) ∧
      newNodes.map (fun n => n.color) =
        (List.range (["a", "b", "c", "d", "e"] : List String).length).map (fun i =>
          some (if i = 0 then "green" else if i = 1 then "red" else "grey")) ∧
      ((["a", "b", "c", "d", "e"] : List String).length ≠ 3 → newNodes.length ≠ 3) ∧
      (3 < (["a", "b", "c", "d", "e"] : List String).length →
        2 ≤ (newNodes.filter
          (fun n => decide (n.persona = some Persona.realist))).length) :=
  claim_C10 demoBranchState 0 1 ["a", "b", "c", "d", "e"] demoRootSession demoRootNode
    (by decide) (by decide)

/-- `Math.round(a / b)` for naturals is the floor of `a/b + 1/2` over the
rationals. -/
theorem jsRoundDiv_eq_floor (a b : Nat) (hb : 0 < b) :
    jsRoundDiv a b = ⌊(a : ℚ) / (b : ℚ) + 1 / 2⌋₊ := by
  have hb' : (b : ℚ) ≠ 0 := Nat.cast_ne_zero.mpr (by omega)
  have hq : (a : ℚ) / b + 1 / 2 = ((2 * a + b : ℕ) : ℚ) / ((2 * b : ℕ) : ℚ) := by
    push_cast
    field_simp
    ring
  rw [hq, Nat.floor_div_nat, Nat.floor_natCast]
  rfl

/-- C8 counterexample: with two stored sessions of 4 and 1 nodes, the code
reports `averageNodesPerSession = 3` (`Math.round(5/2)`), which is not the
exact average `5/2`. -/
theorem claim_C8_counterexample :
    ((getSessionStats statsDemoState).averageNodesPerSession : ℚ) ≠
      ((getSessionStats statsDemoState).totalNodes : ℚ) /
        ((getSessionStats statsDemoState).totalSessions : ℚ) := by
  have hstats : getSessionStats statsDemoState =
      { totalSessions := 2, totalNodes := 5, totalEdges := 3,
        averageNodesPerSession := 3 } := by decide
  rw [hstats]
  norm_num

/-- C8 (amended): `getSessionStats` recomputes, from the live store,
`totalSessions` as the number of stored sessions, `totalNodes` and
`totalEdges` as the sums of the per-session collection lengths, and
`averageNodesPerSession` as `totalNodes / totalSessions` rounded half-up to
the nearest integer (`Math.round`), with 0 when there are no sessions. -/
theorem claim_C8 (st : GraphState) :
    (getSessionStats st).totalSessions = st.sessions.length ∧
    (getSessionStats st).totalNodes =
      (st.sessions.map (fun ks => ks.2.nodes.length)).sum ∧
    (getSessionStats st).totalEdges =
      (st.sessions.map (fun ks => ks.2.edges.length)).sum ∧
    (st.sessions.length = 0 → (getSessionStats st).averageNodesPerSession = 0) ∧
    (0 < st.sessions.length →
      (getSessionStats st).averageNodesPerSession =
        ⌊((getSessionStats st).totalNodes : ℚ) /
          ((getSessionStats st).totalSessions : ℚ) + 1 / 2⌋₊) := by
  refine ⟨rfl, rfl, rfl, ?_, ?_⟩
  · intro h
    simp [getSessionStats, h]
  · intro h
    have havg : (getSessionStats st).averageNodesPerSession =
        jsRoundDiv ((st.sessions.map (fun ks => ks.2.nodes.length)).sum)
          st.sessions.length := by
      simp [getSessionStats, h]
    rw [havg, jsRoundDiv_eq_floor _ _ h]
    rfl

/-- C8 witness: the rounded-average equation evaluated on the two-session
demo store. -/
theorem claim_C8_witness :
    (getSessionStats statsDemoState).averageNodesPerSession =
      ⌊((getSessionStats statsDemoState).totalNodes : ℚ) /
        ((getSessionStats statsDemoState).totalSessions : ℚ) + 1 / 2⌋₊ :=
  (claim_C8 statsDemoState).2.2.2.2 (by decide)

/-- UTF-8 byte length distributes over string concatenation. -/
theorem utf8ByteSize_append (a b : String) :
    (a ++ b).utf8ByteSize = a.utf8ByteSize + b.utf8ByteSize := by
  rcases a with ⟨da⟩
  rcases b with ⟨db⟩
  have h : (String.mk da) ++ (String.mk db) = String.mk (da ++ db) := rfl
  rw [h]
  simp [String.utf8Len_append]

/-- UTF-8 length of a run of `'a'`s. -/
theorem utf8Len_replicate_a (n : Nat) :
    String.utf8Len (List.replicate n 'a') = n := by
  induction n with
  | zero => rfl
  | succ n ih =>
    rw [List.replicate_succ, String.utf8Len_cons, ih]
    have h : ('a').utf8Size = 1 := by decide
    omega

/-- JSON escaping leaves a run of `'a'`s unchanged. -/
theorem jsonEscape_replicate_a (n : Nat) :
    jsonEscape (String.mk (List.replicate n 'a')) =
      String.mk (List.replicate n 'a') := by
  have hc : jsonEscapeChar 'a' = String.singleton 'a' := by decide
  induction n with
  | zero => rfl
  | succ n ih =>
    rw [show String.mk (List.replicate (n + 1) 'a') =
      String.mk ('a' :: List.replicate n 'a') from by rw [List.replicate_succ]]
    show jsonEscapeChar 'a' ++ jsonEscape (String.mk (List.replicate n 'a')) =
      String.mk ('a' :: List.replicate n 'a')
    rw [ih, hc]
    rfl

/-- The long demo text occupies 70000 UTF-8 bytes. -/
theorem longText_utf8 : longText.utf8ByteSize = 70000 :=
  utf8Len_replicate_a 70000

/-- The long demo text has 70000 characters. -/
theorem longText_length : longText.length = 70000 :=
  List.length_replicate 70000 'a'

/-- JSON escaping leaves the long demo text unchanged. -/
theorem jsonEscape_longText : jsonEscape longText = longText :=
  jsonEscape_replicate_a 70000

/-- Serialised size of the long text as a JSON string literal. -/
theorem jsonStr_longText_size : (jsonStr longText).utf8ByteSize = 70002 := by
  simp only [jsonStr]
  rw [jsonEscape_longText, utf8ByteSize_append, utf8ByteSize_append, longText_utf8]
  norm_num [show ("\"" : String).utf8ByteSize = 1 from by decide]

/-- The demo graph body's serialised JSON exceeds the 64 KB ceiling. -/
theorem oversizedBody_size : RESPONSE_SIZE_LIMIT < jsonByteLength oversizedBody := by
  show 64 * 1024 < jsonByteLength oversizedBody
  simp only [jsonByteLength, stringifyBody, oversizedBody, arrJson, joinComma,
    List.map_cons, List.map_nil, nodeJson, longNode, shortNode, edgeJson]
  simp only [utf8ByteSize_append]
  rw [jsonStr_longText_size]
  omega

/-- Evaluation of the middleware on the oversized demo body: the long node
text is truncated, the short node passes through unchanged. -/
theorem oversized_truncated :
    limitResponseSizeBody RESPONSE_SIZE_LIMIT oversizedBody =
      ResponseBody.graph 0
        [{ longNode with text := longNode.text.take 200 ++ "..." }, shortNode] [] := by
  simp only [limitResponseSizeBody]
  rw [if_pos oversizedBody_size]
  show ResponseBody.graph 0
    ([longNode, shortNode].map (fun node =>
      { node with text := if 200 < node.text.length
                          then node.text.take 200 ++ "..." else node.text })) [] = _
  simp only [List.map_cons, List.map_nil]
  have hl : 200 < longNode.text.length := by
    rw [show longNode.text = longText from rfl, longText_length]
    omega
  have hs : ¬ 200 < shortNode.text.length := by decide
  rw [if_pos hl, if_neg hs]

/-- C9 counterexample: the demo body exceeds the 64 KB ceiling, yet one of
its graph nodes (the 2-character one) is sent with its text unchanged — no
truncation and no ellipsis — so the middleware does not truncate *each*
node's text of an oversized response. -/
theorem claim_C9_counterexample :
    RESPONSE_SIZE_LIMIT < jsonByteLength oversizedBody ∧
    ∃ n ∈ bodyNodes (limitResponseSizeBody RESPONSE_SIZE_LIMIT oversizedBody),
      n.text = "hi" ∧ ¬ ∃ pre, n.text = pre ++ "..." := by
  refine ⟨oversizedBody_size, shortNode, ?_, rfl, ?_⟩
  · rw [oversized_truncated]
    simp [bodyNodes]
  · rintro ⟨pre, hpre⟩
    have hlen := congrArg String.length hpre
    rw [String.length_append] at hlen
    have h1 : ("hi" : String).length = 2 := by decide
    have h2 : ("..." : String).length = 3 := by decide
    show False
    rw [show shortNode.text = "hi" from rfl] at hlen
    omega

/-- C9 (amended): the middleware never alters the HTTP status and never
converts the request into an error; a response whose serialised JSON is
within the 64 KB ceiling is sent unchanged; an oversized graph response is
sent with exactly those node texts longer than 200 characters truncated to
their first 200 characters plus an ellipsis (every sent node text is then
at most 203 characters), while shorter node texts and the rest of the body
pass through unchanged. -/
theorem claim_C9 (status : Nat) (body : ResponseBody) :
    (limitResponseSizeSend RESPONSE_SIZE_LIMIT status body).status = status ∧
    (jsonByteLength body ≤ RESPONSE_SIZE_LIMIT →
      (limitResponseSizeSend RESPONSE_SIZE_LIMIT status body).body = body) ∧
    (RESPONSE_SIZE_LIMIT < jsonByteLength body →
      ∀ sessionId nodes edges, body = ResponseBody.graph sessionId nodes edges →
        (limitResponseSizeSend RESPONSE_SIZE_LIMIT status body).body =
          ResponseBody.graph sessionId
            (nodes.map (fun node =>
              { node with text := if 200 < node.text.length
                                  then node.text.take 200 ++ "..."
                                  else node.text }))
            edges ∧
        ∀ n ∈ bodyNodes (limitResponseSizeSend RESPONSE_SIZE_LIMIT status body).body,
          n.text.length ≤ 203) := by
  refine ⟨rfl, ?_, ?_⟩
  · intro hle
    simp only [limitResponseSizeSend, limitResponseSizeBody]
    rw [if_neg (by omega)]
  · intro hgt sessionId nodes edges hbody
    subst hbody
    have hbodyEq : (limitResponseSizeSend RESPONSE_SIZE_LIMIT status
        (ResponseBody.graph sessionId nodes edges)).body =
        ResponseBody.graph sessionId
          (nodes.map (fun node =>
            { node with text := if 200 < node.text.length
                                then node.text.take 200 ++ "..."
                                else node.text }))
          edges := by
      simp only [limitResponseSizeSend, limitResponseSizeBody]
      rw [if_pos hgt]
    refine ⟨hbodyEq, ?_⟩
    rw [hbodyEq]
    intro n hn
    simp only [bodyNodes] at hn
    obtain ⟨n0, _, hn0⟩ := List.mem_map.mp hn
    rw [← hn0]
    by_cases hlen : 200 < n0.text.length
    · simp only [hlen, if_true]
      rw [String.length_append]
      have htake : (n0.text.take 200).length ≤ 200 := by
        rw [String.take_eq]
        show (List.take 200 n0.text.data).length ≤ 200
        simp [List.length_take]
      have hdots : ("..." : String).length = 3 := by decide
      omega
    · simp only [hlen, if_false]
      omega

/-- C9 witness: an in-ceiling body is sent unchanged with its status, and
the oversized demo body is sent truncated per node. -/
theorem claim_C9_witness :
    (limitResponseSizeSend RESPONSE_SIZE_LIMIT 200 (ResponseBody.graph 0 [] [])).status
        = 200 ∧
    (limitResponseSizeSend RESPONSE_SIZE_LIMIT 200 (ResponseBody.graph 0 [] [])).body =
      ResponseBody.graph 0 [] [] ∧
    (limitResponseSizeSend RESPONSE_SIZE_LIMIT 200 oversizedBody).body =
      ResponseBody.graph 0
        ([longNode, shortNode].map (fun node =>
          { node with text := if 200 < node.text.length
                              then node.text.take 200 ++ "..."
                              else node.text }))
        [] :=
  ⟨(claim_C9 200 (ResponseBody.graph 0 [] [])).1,
   (claim_C9 200 (ResponseBody.graph 0 [] [])).2.1 (by decide),
   ((claim_C9 200 oversizedBody).2.2 oversizedBody_size 0 [longNode, shortNode] []
     rfl).1⟩
